import Mathlib

/-!
Verification of the Verraco exam core against its specification.

This file shallowly embeds the Python source under `backend/` into Lean:

* Python's heterogeneous JSON-ish values (dicts, lists, strings, ints,
  booleans, None) are modelled by the inductive type `Val`;
* Python dict operations are modelled by association-list operations that
  agree with CPython's insertion-ordered dicts on every state the modelled
  code can reach (keys are unique in every reachable dict);
* file contents read from disk (`answer_keys.json`, `q10_bank.json`) are
  passed as explicit `Val` parameters;
* `random.Random(seed)` is modelled by a deterministic draw stream that is a
  pure function of the integer seed (`mtStream`); every shuffle theorem that
  does not concern determinism is proved for an arbitrary stream;
* code that can raise an uncaught exception is modelled with `Except String`.

Sections follow the source files: `services/shuffle_service.py`,
`routes/exam_routes.py`, `services/exam_services.py` (with
`services/q10_repo.py`), `services/grader.py`.
-/

namespace Verraco

/-- Model of the Python values the exam core manipulates: `None`, `bool`,
`int`, `str`, `list`/`tuple` (tuples and lists behave identically in all
modelled code paths), and `dict` with string keys (all dict keys in the
modelled code are strings). -/
inductive Val where
  | none : Val
  | bool : Bool → Val
  | int : Int → Val
  | str : String → Val
  | list : List Val → Val
  | dict : List (String × Val) → Val
deriving Repr

/-- Python truthiness (`bool(x)`): `None`, `False`, `0`, `""`, `[]`, and
empty dicts are falsy. -/
def truthy : Val → Bool
  | Val.none => false
  | Val.bool b => b
  | Val.int n => n ≠ 0
  | Val.str s => s ≠ ""
  | Val.list xs => ¬ xs.isEmpty
  | Val.dict kvs => ¬ kvs.isEmpty

/-- Python `a or b`. -/
def pyOr (a b : Val) : Val := if truthy a then a else b

/-- `isinstance(v, dict)`. -/
def Val.isDict : Val → Bool
  | Val.dict _ => true
  | _ => false

/-- Characters stripped by Python `str.strip()` (ASCII whitespace; the
modelled data is ASCII). -/
def isPySpace (c : Char) : Bool :=
  c = ' ' ∨ c = '\t' ∨ c = '\n' ∨ c = '\r' ∨ c = '\x0b' ∨ c = '\x0c'

/-- Python `str.strip()`. -/
def pyStrip (s : String) : String :=
  String.mk (((s.data.dropWhile isPySpace).reverse.dropWhile isPySpace).reverse)

/-- Python `str.upper()` (ASCII; all letters in the modelled data are ASCII). -/
def pyUpper (s : String) : String := String.mk (s.data.map Char.toUpper)

/-- Python `str.lower()` (ASCII). -/
def pyLower (s : String) : String := String.mk (s.data.map Char.toLower)

mutual

/-- Python `repr(v)`, used by `str` on containers. String escaping is not
reproduced (no modelled code path inspects the repr of a container). -/
def reprVal : Val → String
  | Val.none => "None"
  | Val.bool true => "True"
  | Val.bool false => "False"
  | Val.int n => toString n
  | Val.str s => "'" ++ s ++ "'"
  | Val.list xs => "[" ++ reprElems xs ++ "]"
  | Val.dict kvs => "\x7b" ++ reprPairs kvs ++ "\x7d"

/-- Comma-separated reprs of list elements. -/
def reprElems : List Val → String
  | [] => ""
  | [x] => reprVal x
  | x :: xs => reprVal x ++ ", " ++ reprElems xs

/-- Comma-separated reprs of dict items. -/
def reprPairs : List (String × Val) → String
  | [] => ""
  | [(k, v)] => "'" ++ k ++ "': " ++ reprVal v
  | (k, v) :: kvs => "'" ++ k ++ "': " ++ reprVal v ++ ", " ++ reprPairs kvs

end

/-- Python `str(v)`. -/
def pyStr : Val → String
  | Val.none => "None"
  | Val.bool true => "True"
  | Val.bool false => "False"
  | Val.int n => toString n
  | Val.str s => s
  | Val.list xs => reprVal (Val.list xs)
  | Val.dict kvs => reprVal (Val.dict kvs)

/-- Association-list lookup: first binding wins. On dicts with unique keys
(every dict the modelled code builds) this is CPython dict lookup. -/
def dGet : List (String × Val) → String → Option Val
  | [], _ => Option.none
  | (k, v) :: t, key => if k = key then some v else dGet t key

/-- Association-list update: replace the value at the first occurrence of the
key, else append.  On unique-key dicts this is CPython `d[k] = v` (insertion
order of an existing key is preserved; a new key goes last). -/
def dSet : List (String × Val) → String → Val → List (String × Val)
  | [], key, v => [(key, v)]
  | (k, w) :: t, key, v => if k = key then (k, v) :: t else (k, w) :: dSet t key v

/-- Association-list deletion of every binding of the key.  On unique-key
dicts this is CPython `d.pop(k, None)`. -/
def dPop : List (String × Val) → String → List (String × Val)
  | [], _ => []
  | (k, w) :: t, key => if k = key then dPop t key else (k, w) :: dPop t key

/-- Python `d.get(k)` (default `None`); returns `None` on non-dicts, which the
modelled code never reaches with a non-dict. -/
def vget (d : Val) (k : String) : Val :=
  match d with
  | Val.dict kvs => (dGet kvs k).getD Val.none
  | _ => Val.none

/-- Python `d.get(k, default)`. -/
def vgetD (d : Val) (k : String) (dflt : Val) : Val :=
  match d with
  | Val.dict kvs => (dGet kvs k).getD dflt
  | _ => dflt

/-- Python `d[k] = v` (identity on non-dicts, which the modelled code never
reaches). -/
def vset (d : Val) (k : String) (v : Val) : Val :=
  match d with
  | Val.dict kvs => Val.dict (dSet kvs k v)
  | _ => d

/-- Python `d.pop(k, None)` restricted to its effect on the dict. -/
def vpop (d : Val) (k : String) : Val :=
  match d with
  | Val.dict kvs => Val.dict (dPop kvs k)
  | _ => d

/-- Python `k in d` for dicts. -/
def vhas (d : Val) (k : String) : Bool :=
  match d with
  | Val.dict kvs => (dGet kvs k).isSome
  | _ => false

@[simp] theorem dGet_nil (k : String) : dGet [] k = Option.none := rfl

@[simp] theorem dGet_cons (k key : String) (v : Val) (t : List (String × Val)) :
    dGet ((k, v) :: t) key = if k = key then some v else dGet t key := rfl

theorem dGet_dSet_self (kvs : List (String × Val)) (k : String) (v : Val) :
    dGet (dSet kvs k v) k = some v := by
  induction kvs with
  | nil => simp [dSet]
  | cons hd t ih =>
    obtain ⟨k', w⟩ := hd
    by_cases h : k' = k <;> simp [dSet, h, ih]

theorem dGet_dSet_ne (kvs : List (String × Val)) (k k' : String) (v : Val)
    (h : k ≠ k') : dGet (dSet kvs k v) k' = dGet kvs k' := by
  induction kvs with
  | nil => simp [dSet, h]
  | cons hd t ih =>
    obtain ⟨k'', w⟩ := hd
    by_cases h2 : k'' = k <;> simp [dSet, h2, ih, h]

theorem dGet_dPop_self (kvs : List (String × Val)) (k : String) :
    dGet (dPop kvs k) k = Option.none := by
  induction kvs with
  | nil => simp [dPop]
  | cons hd t ih =>
    obtain ⟨k', w⟩ := hd
    by_cases h : k' = k <;> simp [dPop, h, ih]

theorem dGet_dPop_ne (kvs : List (String × Val)) (k k' : String) (h : k ≠ k') :
    dGet (dPop kvs k) k' = dGet kvs k' := by
  induction kvs with
  | nil => simp [dPop]
  | cons hd t ih =>
    obtain ⟨k'', w⟩ := hd
    by_cases h2 : k'' = k
    · subst h2
      simp [dPop, h, ih]
    · simp [dPop, h2, ih]

@[simp] theorem vget_vset_self (kvs : List (String × Val)) (k : String) (v : Val) :
    vget (vset (Val.dict kvs) k v) k = v := by
  simp [vget, vset, dGet_dSet_self]

theorem vget_vset_ne (kvs : List (String × Val)) (k k' : String) (v : Val)
    (h : k ≠ k') : vget (vset (Val.dict kvs) k v) k' = vget (Val.dict kvs) k' := by
  simp [vget, vset, dGet_dSet_ne _ _ _ _ h]

theorem vget_vpop_self (kvs : List (String × Val)) (k : String) :
    vget (vpop (Val.dict kvs) k) k = Val.none := by
  simp [vget, vpop, dGet_dPop_self]

theorem vget_vpop_ne (kvs : List (String × Val)) (k k' : String) (h : k ≠ k') :
    vget (vpop (Val.dict kvs) k) k' = vget (Val.dict kvs) k' := by
  simp [vget, vpop, dGet_dPop_ne _ _ _ h]

/-- `vset` on a dict yields a dict. -/
theorem vset_isDict (kvs : List (String × Val)) (k : String) (v : Val) :
    ∃ kvs', vset (Val.dict kvs) k v = Val.dict kvs' := ⟨dSet kvs k v, rfl⟩

/-- `isinstance(v, int)`: CPython counts `bool` as `int`. -/
def pyIsInt : Val → Option Int
  | Val.int n => some n
  | Val.bool b => some (if b then 1 else 0)
  | _ => Option.none

/-- Parse the digits of a string as a natural number (helper for `int(s)`). -/
def digitsToNat (cs : List Char) : Nat :=
  cs.foldl (fun acc c => acc * 10 + (c.toNat - 48)) 0

/-- Python `int(v)`: `none` on the inputs where CPython raises. Strings are
stripped first; an optional single sign then at least one digit is accepted. -/
def pyInt : Val → Option Int
  | Val.int n => some n
  | Val.bool b => some (if b then 1 else 0)
  | Val.str s =>
    let cs := (pyStrip s).data
    match cs with
    | [] => Option.none
    | c :: rest =>
      if c = '-' then
        if rest ≠ [] ∧ rest.all Char.isDigit then some (-(digitsToNat rest : Int))
        else Option.none
      else if c = '+' then
        if rest ≠ [] ∧ rest.all Char.isDigit then some ((digitsToNat rest : Int))
        else Option.none
      else if (c :: rest).all Char.isDigit then some ((digitsToNat (c :: rest) : Int))
      else Option.none
  | _ => Option.none

/-! ## services/shuffle_service.py -/

/-- The module constant `_LETTERS = ("A", "B", "C", "D")`. -/
def LETTERS4 : List String := ["A", "B", "C", "D"]

/-- `_LETTERS[i]` — every index the modelled code produces is below 4, so the
out-of-range default is never reached (Python would raise there). -/
def letterAt (i : Nat) : String := LETTERS4.getD i ""

/-- `_LETTERS.index(letter) if letter in _LETTERS else 0`
(from `_set_correct_letters`). -/
def letterIndex (l : String) : Int :=
  if l ∈ LETTERS4 then ((LETTERS4.indexOf l : Nat) : Int) else 0

/-- `_as_letter_list` of `shuffle_service.py` (lines 11-27). -/
def _as_letter_list : Val → List String
  | Val.none => []
  | Val.str s =>
    let u := pyUpper (pyStrip s)
    if u = "" then [] else [u]
  | Val.list xs =>
    xs.filterMap (fun x =>
      match x with
      | Val.none => Option.none
      | _ =>
        let u := pyUpper (pyStrip (pyStr x))
        if u = "" then Option.none else some u)
  | v =>
    let u := pyUpper (pyStrip (pyStr v))
    if u = "" then [] else [u]

/-- One layer of `_get_correct_letters` (lines 30-63): the key probes
`correct_letters`, then `correct`, `answer`, `correct_letter`, then an
in-range integer `correct_index`; `some` is an early `return`, `none` falls
through.  The same sequence is applied first to the question and then to its
`meta` dict. -/
def _getCL_layer (q : Val) : Option (List String) :=
  let t1 := _as_letter_list (vget q "correct_letters")
  if ¬ t1.isEmpty then some t1 else
  let t2 := _as_letter_list (vget q "correct")
  if ¬ t2.isEmpty then some t2 else
  let t3 := _as_letter_list (vget q "answer")
  if ¬ t3.isEmpty then some t3 else
  let t4 := _as_letter_list (vget q "correct_letter")
  if ¬ t4.isEmpty then some t4 else
  match pyIsInt (vget q "correct_index") with
  | some i => if 0 ≤ i ∧ i < 4 then some [letterAt i.toNat] else Option.none
  | Option.none => Option.none

/-- `_get_correct_letters` of `shuffle_service.py` (lines 30-63). -/
def _get_correct_letters (q : Val) : List String :=
  match _getCL_layer q with
  | some l => l
  | Option.none =>
    match vget q "meta" with
    | Val.dict mkvs => (_getCL_layer (Val.dict mkvs)).getD []
    | _ => []

/-- `_set_correct_letters` of `shuffle_service.py` (lines 66-81), returning
the updated question dict. -/
def _set_correct_letters (q : Val) (newLetters : List String) : Val :=
  let qtype := pyLower (pyStrip (pyStr (pyOr (vget q "type") (Val.str "single"))))
  if qtype = "multi" ∨ newLetters.length > 1 then
    let q1 := vset q "correct_letters" (Val.list (newLetters.map Val.str))
    let q2 := vset q1 "correct" (Val.list (newLetters.map Val.str))
    let q3 := vpop q2 "correct_letter"
    vpop q3 "correct_index"
  else
    let letter := newLetters.headD "A"
    let q1 := vset q "correct_letter" (Val.str letter)
    let q2 := vset q1 "correct" (Val.list [Val.str letter])
    let q3 := vset q2 "correct_index" (Val.int (letterIndex letter))
    vpop q3 "correct_letters"

/-- The per-item parse in `_shuffle_choices_one` (lines 90-97): a 2-element
list/tuple gives `(str(item[0]).strip().upper(), str(item[1]))`, a dict with
`label` and `text` keys likewise, anything else gives `("", str(item))`. -/
def parseChoice (v : Val) : String × String :=
  match v with
  | Val.list [a, b] => (pyUpper (pyStrip (pyStr a)), pyStr b)
  | Val.dict kvs =>
    match dGet kvs "label", dGet kvs "text" with
    | some l, some t => (pyUpper (pyStrip (pyStr l)), pyStr t)
    | _, _ => ("", pyStr (Val.dict kvs))
  | _ => ("", pyStr v)

/-- Generic association-list lookup (first binding wins) for the local Python
dicts `old_index_to_new_index` and `label_to_old_index`. -/
def aGet {κ ν : Type} [DecidableEq κ] : List (κ × ν) → κ → Option ν
  | [], _ => Option.none
  | (k, v) :: t, key => if k = key then some v else aGet t key

/-- Generic association-list update (replace first binding in place, else
append), the dict-assignment semantics of CPython on unique-key dicts. -/
def aIns {κ ν : Type} [DecidableEq κ] : List (κ × ν) → κ → ν → List (κ × ν)
  | [], key, v => [(key, v)]
  | (k, w) :: t, key, v => if k = key then (k, v) :: t else (k, w) :: aIns t key v

/-- One swap of CPython `random.shuffle`'s Fisher-Yates loop. -/
def swapL {α : Type} (xs : List α) (i j : Nat) : List α :=
  match xs.get? i, xs.get? j with
  | some a, some b => (xs.set i b).set j a
  | _, _ => xs

/-- The Fisher-Yates loop of CPython `random.shuffle`:
`for i in reversed(range(1, len(x))): j = randbelow(i+1); swap x[i], x[j]`.
`draws i` models the `randbelow(i+1)` draw at loop index `i`; the reduction
mod `i+1` makes the model total and agrees with CPython, whose draw always
lies in `[0, i]`. -/
def fyAux {α : Type} (draws : Nat → Nat) : Nat → List α → List α
  | 0, xs => xs
  | Nat.succ k, xs => fyAux draws k (swapL xs (k + 1) (draws (k + 1) % (k + 2)))

/-- `rng.shuffle(xs)` (CPython `random.shuffle`). -/
def pyShuffle {α : Type} (draws : Nat → Nat) (xs : List α) : List α :=
  fyAux draws (xs.length - 1) xs

/-- The `old_index_to_new_index` dict of `_shuffle_choices_one`
(lines 107-109), built from the shuffled `indexed` list. -/
def buildO2N (ind : List (Nat × (String × String))) : List (Nat × Nat) :=
  ind.enum.foldl (fun m p => aIns m p.2.1 p.1) []

/-- The `label_to_old_index` dict of `_shuffle_choices_one` (lines 111-116). -/
def buildL2O (parsed : List (String × String)) : List (String × Nat) :=
  parsed.enum.foldl
    (fun m p =>
      if p.2.1 ∈ LETTERS4 then aIns m p.2.1 p.1 else aIns m (letterAt p.1) p.1)
    []

/-- The `new_correct` loop of `_shuffle_choices_one` (lines 118-128): each
pre-shuffle correct letter is located among the old labels, followed to its
new position, and renamed to the canonical letter of that position; letters
that fail any step are skipped. -/
def newCorrectLetters (correctBefore : List String)
    (l2o : List (String × Nat)) (o2n : List (Nat × Nat)) : List String :=
  correctBefore.filterMap (fun lab =>
    if lab ∈ LETTERS4 then
      (aGet l2o lab).bind (fun oi => (aGet o2n oi).map letterAt)
    else Option.none)

/-- The `indexed` list after `rng.shuffle(indexed)` in `_shuffle_choices_one`
(lines 104-105): the enumerated parsed choices, permuted by the rng. -/
def shuffledInd (parsed : List (String × String)) (draws : Nat → Nat) :
    List (Nat × (String × String)) :=
  pyShuffle draws parsed.enum

/-- The `new_choices` list of `_shuffle_choices_one` (lines 130-132): the
shuffled texts relabelled positionally with the canonical letters. -/
def newChoicesOf (parsed : List (String × String)) (draws : Nat → Nat) :
    List (String × String) :=
  (shuffledInd parsed draws).enum.map (fun p => (letterAt p.1, p.2.2.2))

/-- The `new_correct` list of `_shuffle_choices_one` for a given question. -/
def newCorrectOf (q : Val) (parsed : List (String × String)) (draws : Nat → Nat) :
    List String :=
  newCorrectLetters (_get_correct_letters q) (buildL2O parsed)
    (buildO2N (shuffledInd parsed draws))

/-- Body of `_shuffle_choices_one` (lines 102-154) once the choices have
parsed to exactly 4 entries: rewrite the choices, recompute correctness
(`new_correct or ["A"]`), and record the permutation maps on `meta`. -/
def shuffleOneBody (q : Val) (parsed : List (String × String)) (draws : Nat → Nat) : Val :=
  let q2 := vset q "choices"
    (Val.list ((newChoicesOf parsed draws).map (fun pr => Val.list [Val.str pr.1, Val.str pr.2])))
  let q3 := _set_correct_letters q2
    (if (newCorrectOf q parsed draws).isEmpty then ["A"] else newCorrectOf q parsed draws)
  let metaKvs0 : List (String × Val) :=
    match vget q3 "meta" with
    | Val.dict mkvs => mkvs
    | _ => []
  let metaKvs1 := dSet metaKvs0 "shuffled_choices" (Val.bool true)
  let o2nLetters := (buildO2N (shuffledInd parsed draws)).foldl
    (fun m p => dSet m (letterAt p.1) (Val.str (letterAt p.2))) []
  let n2oLetters := (buildO2N (shuffledInd parsed draws)).foldl
    (fun m p => dSet m (letterAt p.2) (Val.str (letterAt p.1))) []
  let metaKvs2 := dSet metaKvs1 "old_to_new_letter" (Val.dict o2nLetters)
  let metaKvs3 := dSet metaKvs2 "new_to_old_letter" (Val.dict n2oLetters)
  vset q3 "meta" (Val.dict metaKvs3)

/-- `_shuffle_choices_one` of `shuffle_service.py` (lines 83-154).  The
`copy.deepcopy(q)` at entry is the identity in this immutable-value model;
all writes below act on the copy, matching the source's writes to `q2`.
Both early returns (`choices` not a 4-element list, and the re-check
`len(parsed) != 4`, which can never fire since the parse loop emits one pair
per item) return the copy unchanged. -/
def _shuffle_choices_one (q : Val) (draws : Nat → Nat) : Val :=
  match vget q "choices" with
  | Val.list cs =>
    if cs.length = 4 then
      if (cs.map parseChoice).length ≠ 4 then q
      else shuffleOneBody q (cs.map parseChoice) draws
    else q
  | _ => q

/-- The draw stream of `random.Random(seed)`: a pure function of the integer
seed.  CPython's Mersenne Twister is deterministic in the seed, which is the
only property of the stream any theorem below relies on; every shuffle
theorem other than determinism is quantified over an arbitrary stream, so
this surrogate formula never strengthens a hypothesis. -/
def mtStream (seed : Int) (k : Nat) : Nat :=
  (seed.natAbs * 2654435761 + (k + 1) * 2246822519 + 3266489917) % 4294967296

/-- The per-question seq loop of `shuffle_exam_set` (lines 188-194):
`meta["seq"]` is set to the 1-based position unless already present. -/
def ensureSeqMeta (i : Nat) (q : Val) : Val :=
  match vget q "meta" with
  | Val.dict mkvs =>
    if (dGet mkvs "seq").isSome then q
    else vset q "meta" (Val.dict (dSet mkvs "seq" (Val.int i)))
  | _ => vset q "meta" (Val.dict [("seq", Val.int i)])

/-- `shuffle_exam_set` of `shuffle_service.py` (lines 157-196).  The
`copy.deepcopy(exam_set)` at entry is the identity in this immutable-value
model.  The source assigns `out["questions"]` three times (normalized,
shuffled, and in-place seq updates); only the final value is observable, so
one `vset` with the final list models the sequence.  The top-level
`rng = random.Random(int(seed))` of line 164 is never used by the source
(each question builds its own `random.Random(q_seed)`), so it has no
counterpart here. -/
def shuffle_exam_set (examSet : Val) (seed : Int) : Val :=
  match vget examSet "questions" with
  | Val.list qs =>
    if qs.isEmpty then examSet
    else
      let normalizedQs := qs.filter Val.isDict
      let shuffled := normalizedQs.enum.map
        (fun p => _shuffle_choices_one p.2 (mtStream (seed * 1000003 + p.1)))
      let withSeq := shuffled.enum.map (fun p => ensureSeqMeta (p.1 + 1) p.2)
      vset examSet "questions" (Val.list withSeq)
  | _ => examSet

/-- The call protocol of `shuffle_exam_set`: first component is the caller's
`exam_set` argument as observable after the call, second is the returned
value.  Every statement of the source writes to `out = copy.deepcopy(exam_set)`
or to the copied questions inside it, never through the `exam_set` reference,
so the argument is returned unchanged. -/
def shuffle_exam_set_call (examSet : Val) (seed : Int) : Val × Val :=
  (examSet, shuffle_exam_set examSet seed)

/-! ### Statement projections

These definitions only serve to state properties; they are read-only views
of the embedded data. -/

/-- The `(letter, text)` pairs of a question's `choices` field, parsed
exactly as `_shuffle_choices_one` parses them. -/
def choicePairs (q : Val) : List (String × String) :=
  match vget q "choices" with
  | Val.list cs => cs.map parseChoice
  | _ => []

/-- The text displayed at letter `lab` (first pair carrying that letter). -/
def textAt (pairs : List (String × String)) (lab : String) : Option String :=
  aGet pairs lab

/-- The `idx`-th question of an exam set. -/
def questionAt (examSet : Val) (idx : Nat) : Option Val :=
  match vget examSet "questions" with
  | Val.list qs => qs.get? idx
  | _ => Option.none

/-! ### Permutation facts about the Fisher-Yates shuffle -/

theorem set_cons_perm {α : Type} :
    ∀ (t : List α) (j : Nat) (b x : α), t.get? j = some b →
      List.Perm (b :: t.set j x) (x :: t) := by
  intro t
  induction t with
  | nil => intro j b x h; simp at h
  | cons c t' ih =>
    intro j b x h
    cases j with
    | zero =>
      rw [List.get?_cons_zero] at h
      injection h with h
      subst h
      simpa using List.Perm.swap x c t'
    | succ j' =>
      rw [List.get?_cons_succ] at h
      have step1 : List.Perm (b :: c :: t'.set j' x) (c :: b :: t'.set j' x) :=
        List.Perm.swap c b _
      have step2 : List.Perm (c :: b :: t'.set j' x) (c :: x :: t') :=
        (ih j' b x h).cons c
      have step3 : List.Perm (c :: x :: t') (x :: c :: t') := List.Perm.swap x c t'
      simpa using (step1.trans step2).trans step3

theorem set_set_perm {α : Type} :
    ∀ (xs : List α) (i j : Nat) (a b : α), xs.get? i = some a → xs.get? j = some b →
      List.Perm ((xs.set i b).set j a) xs := by
  intro xs
  induction xs with
  | nil => intro i j a b h1 h2; simp at h1
  | cons x t ih =>
    intro i j a b h1 h2
    cases i with
    | zero =>
      rw [List.get?_cons_zero] at h1
      injection h1 with h1
      cases j with
      | zero =>
        rw [List.get?_cons_zero] at h2
        injection h2 with h2
        subst h1; subst h2
        simp
      | succ j' =>
        rw [List.get?_cons_succ] at h2
        subst h1
        simpa using set_cons_perm t j' b x h2
    | succ i' =>
      rw [List.get?_cons_succ] at h1
      cases j with
      | zero =>
        rw [List.get?_cons_zero] at h2
        injection h2 with h2
        subst h2
        simpa using set_cons_perm t i' a x h1
      | succ j' =>
        rw [List.get?_cons_succ] at h2
        simpa using (ih i' j' a b h1 h2).cons x

theorem swapL_perm {α : Type} (xs : List α) (i j : Nat) :
    List.Perm (swapL xs i j) xs := by
  unfold swapL
  cases hi : xs.get? i with
  | none => exact List.Perm.refl xs
  | some a =>
    cases hj : xs.get? j with
    | none => exact List.Perm.refl xs
    | some b => exact set_set_perm xs i j a b hi hj

theorem fyAux_perm {α : Type} (draws : Nat → Nat) :
    ∀ (k : Nat) (xs : List α), List.Perm (fyAux draws k xs) xs := by
  intro k
  induction k with
  | zero => intro xs; exact List.Perm.refl xs
  | succ k' ih =>
    intro xs
    exact (ih _).trans (swapL_perm xs (k' + 1) (draws (k' + 1) % (k' + 2)))

theorem pyShuffle_perm {α : Type} (draws : Nat → Nat) (xs : List α) :
    List.Perm (pyShuffle draws xs) xs :=
  fyAux_perm draws (xs.length - 1) xs

theorem pyShuffle_length {α : Type} (draws : Nat → Nat) (xs : List α) :
    (pyShuffle draws xs).length = xs.length :=
  (pyShuffle_perm draws xs).length_eq

/-! ### Association-list facts -/

theorem aGet_of_mem_nodup {κ ν : Type} [DecidableEq κ] :
    ∀ (ms : List (κ × ν)), (ms.map Prod.fst).Nodup →
      ∀ (k : κ) (v : ν), (k, v) ∈ ms → aGet ms k = some v := by
  intro ms
  induction ms with
  | nil => intro _ k v hm; simp at hm
  | cons hd t ih =>
    intro hnd k v hm
    obtain ⟨k0, v0⟩ := hd
    rw [List.map_cons, List.nodup_cons] at hnd
    rcases List.mem_cons.mp hm with heq | ht
    · cases heq
      simp [aGet]
    · have hk0 : k0 ≠ k := by
        intro hcon
        apply hnd.1
        rw [hcon]
        exact List.mem_map.mpr ⟨(k, v), ht, rfl⟩
      simp only [aGet, if_neg hk0]
      exact ih hnd.2 k v ht

theorem aGet_none_not_mem {κ ν : Type} [DecidableEq κ] :
    ∀ (ms : List (κ × ν)) (k : κ), aGet ms k = Option.none →
      ∀ v : ν, (k, v) ∉ ms := by
  intro ms
  induction ms with
  | nil => intro k _ v hm; simp at hm
  | cons hd t ih =>
    intro k h v hm
    obtain ⟨k0, v0⟩ := hd
    by_cases hk : k0 = k
    · simp [aGet, hk] at h
    · simp only [aGet, if_neg hk] at h
      rcases List.mem_cons.mp hm with heq | ht
      · cases heq
        exact hk rfl
      · exact ih k h v ht

theorem aIns_fresh {κ ν : Type} [DecidableEq κ] :
    ∀ (ms : List (κ × ν)) (k : κ) (v : ν), aGet ms k = Option.none →
      aIns ms k v = ms ++ [(k, v)] := by
  intro ms
  induction ms with
  | nil => intro k v _; rfl
  | cons hd t ih =>
    intro k v h
    obtain ⟨k0, v0⟩ := hd
    by_cases hk : k0 = k
    · simp [aGet, hk] at h
    · simp only [aGet, if_neg hk] at h
      simp [aIns, hk, ih k v h]

theorem aGet_append_of_none {κ ν : Type} [DecidableEq κ] :
    ∀ (m1 m2 : List (κ × ν)) (k : κ), aGet m1 k = Option.none →
      aGet (m1 ++ m2) k = aGet m2 k := by
  intro m1
  induction m1 with
  | nil => intro m2 k _; rfl
  | cons hd t ih =>
    intro m2 k h
    obtain ⟨k0, v0⟩ := hd
    by_cases hk : k0 = k
    · simp [aGet, hk] at h
    · simp only [aGet, if_neg hk] at h
      simpa [aGet, if_neg hk] using ih m2 k h

theorem foldl_aIns_fresh {κ ν : Type} [DecidableEq κ] :
    ∀ (l : List (κ × ν)) (acc : List (κ × ν)), (l.map Prod.fst).Nodup →
      (∀ k ∈ l.map Prod.fst, aGet acc k = Option.none) →
      l.foldl (fun m p => aIns m p.1 p.2) acc = acc ++ l := by
  intro l
  induction l with
  | nil => intro acc _ _; simp
  | cons hd t ih =>
    intro acc hnd hfresh
    obtain ⟨k0, v0⟩ := hd
    simp only [List.map_cons, List.nodup_cons] at hnd
    have hk0 : aGet acc k0 = Option.none := hfresh k0 (by simp)
    have hstep : aIns acc k0 v0 = acc ++ [(k0, v0)] := aIns_fresh acc k0 v0 hk0
    have hfresh' : ∀ k ∈ t.map Prod.fst, aGet (acc ++ [(k0, v0)]) k = Option.none := by
      intro k hk
      have hne : k0 ≠ k := by
        intro hcon
        apply hnd.1
        rw [hcon]
        exact hk
      rw [aGet_append_of_none _ _ _ (hfresh k (by simp [hk]))]
      simp [aGet, hne]
    calc ((k0, v0) :: t).foldl (fun m p => aIns m p.1 p.2) acc
        = t.foldl (fun m p => aIns m p.1 p.2) (acc ++ [(k0, v0)]) := by
          simp [List.foldl_cons, hstep]
      _ = (acc ++ [(k0, v0)]) ++ t := ih _ hnd.2 hfresh'
      _ = acc ++ ((k0, v0) :: t) := by simp

/-! ### Letter and value normalization facts -/

theorem clean_letter : ∀ l ∈ LETTERS4, pyUpper (pyStrip l) = l := by decide

theorem letter_ne_empty : ∀ l ∈ LETTERS4, l ≠ "" := by decide

theorem letterAt_lt4_mem (i : Nat) (h : i < 4) : letterAt i ∈ LETTERS4 := by
  interval_cases i <;> decide

theorem as_letter_list_map_str :
    ∀ (L : List String), (∀ l ∈ L, l ∈ LETTERS4) →
      _as_letter_list (Val.list (L.map Val.str)) = L := by
  intro L
  induction L with
  | nil => intro _; rfl
  | cons l t ih =>
    intro h
    have hl : l ∈ LETTERS4 := h l (by simp)
    have h1 : pyUpper (pyStrip l) = l := clean_letter l hl
    have h2 : l ≠ "" := letter_ne_empty l hl
    have ht : _as_letter_list (Val.list (t.map Val.str)) = t := ih (fun x hx => h x (by simp [hx]))
    simp only [_as_letter_list, List.map_cons, List.filterMap_cons] at ht ⊢
    simp [pyStr, h1, h2] at ht ⊢
    exact ht

theorem isEmpty_false_of_ne_nil {α : Type} {l : List α} (h : l ≠ []) :
    l.isEmpty = false := by
  cases l with
  | nil => exact absurd rfl h
  | cons a t => rfl

/-! ### Reading keys through writes to other keys -/

theorem vget_vset_ne_all (d : Val) (k k' : String) (v : Val) (h : k ≠ k') :
    vget (vset d k v) k' = vget d k' := by
  cases d <;> simp [vget, vset, dGet_dSet_ne _ _ _ _ h]

theorem vget_vpop_ne_all (d : Val) (k k' : String) (h : k ≠ k') :
    vget (vpop d k) k' = vget d k' := by
  cases d <;> simp [vget, vpop, dGet_dPop_ne _ _ _ h]

theorem vget_vpop_self_all (d : Val) (k : String) : vget (vpop d k) k = Val.none := by
  cases d <;> simp [vget, vpop, dGet_dPop_self]

/-- Reading any key other than the four correctness keys through
`_set_correct_letters` is unchanged. -/
theorem vget_setCL_other (d : Val) (L : List String) (key : String)
    (h1 : key ≠ "correct_letters") (h2 : key ≠ "correct")
    (h3 : key ≠ "correct_letter") (h4 : key ≠ "correct_index") :
    vget (_set_correct_letters d L) key = vget d key := by
  unfold _set_correct_letters
  by_cases hm : pyLower (pyStrip (pyStr (pyOr (vget d "type") (Val.str "single")))) = "multi"
      ∨ L.length > 1
  · rw [if_pos hm]
    rw [vget_vpop_ne_all _ _ _ (Ne.symm h4), vget_vpop_ne_all _ _ _ (Ne.symm h3),
      vget_vset_ne_all _ _ _ _ (Ne.symm h2), vget_vset_ne_all _ _ _ _ (Ne.symm h1)]
  · rw [if_neg hm]
    rw [vget_vpop_ne_all _ _ _ (Ne.symm h1), vget_vset_ne_all _ _ _ _ (Ne.symm h4),
      vget_vset_ne_all _ _ _ _ (Ne.symm h2), vget_vset_ne_all _ _ _ _ (Ne.symm h3)]

/-- `_getCL_layer` only depends on the five correctness keys. -/
theorem getCL_layer_congr (d1 d2 : Val)
    (h1 : vget d1 "correct_letters" = vget d2 "correct_letters")
    (h2 : vget d1 "correct" = vget d2 "correct")
    (h3 : vget d1 "answer" = vget d2 "answer")
    (h4 : vget d1 "correct_letter" = vget d2 "correct_letter")
    (h5 : vget d1 "correct_index" = vget d2 "correct_index") :
    _getCL_layer d1 = _getCL_layer d2 := by
  unfold _getCL_layer
  rw [h1, h2, h3, h4, h5]

theorem getCL_layer_vset_meta (d : Val) (m : Val) :
    _getCL_layer (vset d "meta" m) = _getCL_layer d := by
  apply getCL_layer_congr <;> exact vget_vset_ne_all d "meta" _ m (by decide)

theorem getCL_of_layer_some (d : Val) (L : List String)
    (h : _getCL_layer d = some L) : _get_correct_letters d = L := by
  unfold _get_correct_letters
  rw [h]

theorem vget_ensureSeq_ne (i : Nat) (q : Val) (key : String) (h : key ≠ "meta") :
    vget (ensureSeqMeta i q) key = vget q key := by
  unfold ensureSeqMeta
  cases hm : vget q "meta" with
  | dict mkvs =>
    by_cases hseq : (dGet mkvs "seq").isSome
    · simp [hseq]
    · simp [hseq, vget_vset_ne_all q "meta" key _ (Ne.symm h)]
  | none => simp [vget_vset_ne_all q "meta" key _ (Ne.symm h)]
  | bool b => simp [vget_vset_ne_all q "meta" key _ (Ne.symm h)]
  | int n => simp [vget_vset_ne_all q "meta" key _ (Ne.symm h)]
  | str s => simp [vget_vset_ne_all q "meta" key _ (Ne.symm h)]
  | list xs => simp [vget_vset_ne_all q "meta" key _ (Ne.symm h)]

theorem getCL_layer_ensureSeq (i : Nat) (q : Val) :
    _getCL_layer (ensureSeqMeta i q) = _getCL_layer q := by
  apply getCL_layer_congr <;> exact vget_ensureSeq_ne i q _ (by decide)

/-- After `_set_correct_letters` with a nonempty list of canonical letters,
the key probes of `_get_correct_letters` resolve to exactly that list. -/
theorem getCL_layer_setCL (d : Val) (kvs : List (String × Val)) (hd : d = Val.dict kvs)
    (L : List String) (hne : L ≠ []) (hsub : ∀ l ∈ L, l ∈ LETTERS4) :
    _getCL_layer (_set_correct_letters d L) = some L := by
  subst hd
  unfold _set_correct_letters
  by_cases hm : pyLower (pyStrip (pyStr (pyOr (vget (Val.dict kvs) "type") (Val.str "single")))) = "multi"
      ∨ L.length > 1
  · rw [if_pos hm]
    have hv : vget (vpop (vpop (vset (vset (Val.dict kvs) "correct_letters"
        (Val.list (L.map Val.str))) "correct" (Val.list (L.map Val.str)))
        "correct_letter") "correct_index") "correct_letters"
        = Val.list (L.map Val.str) := by
      rw [vget_vpop_ne_all _ _ _ (by decide), vget_vpop_ne_all _ _ _ (by decide),
        vget_vset_ne_all _ _ _ _ (by decide)]
      exact vget_vset_self _ _ _
    unfold _getCL_layer
    rw [hv, as_letter_list_map_str L hsub]
    simp [isEmpty_false_of_ne_nil hne]
  · rw [if_neg hm]
    push_neg at hm
    have hL : L = [L.headD "A"] := by
      cases L with
      | nil => exact absurd rfl hne
      | cons l t =>
        cases t with
        | nil => rfl
        | cons l2 t2 => simp at hm
    have hhead : L.headD "A" ∈ LETTERS4 := by
      rw [hL] at hsub
      exact hsub _ (by simp)
    have hv1 : vget (vpop (vset (vset (vset (Val.dict kvs) "correct_letter"
        (Val.str (L.headD "A"))) "correct" (Val.list [Val.str (L.headD "A")]))
        "correct_index" (Val.int (letterIndex (L.headD "A")))) "correct_letters")
        "correct_letters" = Val.none := vget_vpop_self_all _ _
    have hv2 : vget (vpop (vset (vset (vset (Val.dict kvs) "correct_letter"
        (Val.str (L.headD "A"))) "correct" (Val.list [Val.str (L.headD "A")]))
        "correct_index" (Val.int (letterIndex (L.headD "A")))) "correct_letters")
        "correct" = Val.list [Val.str (L.headD "A")] := by
      rw [vget_vpop_ne_all _ _ _ (by decide), vget_vset_ne_all _ _ _ _ (by decide)]
      exact vget_vset_self _ _ _
    have hlist : _as_letter_list (Val.list [Val.str (L.headD "A")]) = [L.headD "A"] := by
      have := as_letter_list_map_str [L.headD "A"] (by simpa using hhead)
      simpa using this
    unfold _getCL_layer
    rw [hv1, hv2, hlist]
    simp only [_as_letter_list]
    rw [← hL]
    simp [isEmpty_false_of_ne_nil hne]

/-! ### The permutation dicts as association lists -/

theorem snd_mem_of_mem_enum {α : Type} {l : List α} {p : Nat × α} (h : p ∈ l.enum) :
    p.2 ∈ l :=
  List.get?_mem (List.mem_enum_iff_get?.mp h)

theorem fst_lt_of_mem_enum {α : Type} {l : List α} {p : Nat × α} (h : p ∈ l.enum) :
    p.1 < l.length := by
  have := List.mem_enum_iff_get?.mp h
  have h2 := List.get?_eq_some.mp this
  exact h2.1

theorem buildO2N_eq (ind : List (Nat × (String × String)))
    (hnd : (ind.map Prod.fst).Nodup) :
    buildO2N ind = ind.enum.map (fun p => (p.2.1, p.1)) := by
  unfold buildO2N
  have h1 : ind.enum.foldl (fun m p => aIns m p.2.1 p.1) ([] : List (Nat × Nat))
      = (ind.enum.map (fun p => (p.2.1, p.1))).foldl (fun m pr => aIns m pr.1 pr.2) [] := by
    rw [List.foldl_map]
  have hkeys : (ind.enum.map (fun p => (p.2.1, p.1))).map Prod.fst = ind.map Prod.fst := by
    rw [List.map_map]
    have : ((ind.enum.map Prod.snd).map Prod.fst) = ind.map Prod.fst := by
      rw [List.enum_map_snd]
    rw [← this, List.map_map]
    rfl
  rw [h1, foldl_aIns_fresh (ind.enum.map (fun p => (p.2.1, p.1))) []
    (by rw [hkeys]; exact hnd) (by intro k _; rfl)]
  simp

theorem buildL2O_eq (parsed : List (String × String))
    (hsub : ∀ l ∈ parsed.map Prod.fst, l ∈ LETTERS4)
    (hnd : (parsed.map Prod.fst).Nodup) :
    buildL2O parsed = parsed.enum.map (fun p => (p.2.1, p.1)) := by
  unfold buildL2O
  have hext : parsed.enum.foldl
      (fun m p => if p.2.1 ∈ LETTERS4 then aIns m p.2.1 p.1 else aIns m (letterAt p.1) p.1)
      ([] : List (String × Nat))
      = parsed.enum.foldl (fun m p => aIns m p.2.1 p.1) [] := by
    apply List.foldl_ext
    intro m p hp
    have hmem : p.2.1 ∈ LETTERS4 :=
      hsub _ (List.mem_map.mpr ⟨p.2, snd_mem_of_mem_enum hp, rfl⟩)
    rw [if_pos hmem]
  have h1 : parsed.enum.foldl (fun m p => aIns m p.2.1 p.1) ([] : List (String × Nat))
      = (parsed.enum.map (fun p => (p.2.1, p.1))).foldl (fun m pr => aIns m pr.1 pr.2) [] := by
    rw [List.foldl_map]
  have hkeys : (parsed.enum.map (fun p => (p.2.1, p.1))).map Prod.fst = parsed.map Prod.fst := by
    rw [List.map_map]
    have : ((parsed.enum.map Prod.snd).map Prod.fst) = parsed.map Prod.fst := by
      rw [List.enum_map_snd]
    rw [← this, List.map_map]
    rfl
  rw [hext, h1, foldl_aIns_fresh (parsed.enum.map (fun p => (p.2.1, p.1))) []
    (by rw [hkeys]; exact hnd) (by intro k _; rfl)]
  simp

/-! ### Lifting through shuffle_exam_set -/

theorem isDict_of_vget_list (E : Val) (k : String) (xs : List Val)
    (h : vget E k = Val.list xs) : ∃ kvs, E = Val.dict kvs := by
  cases E with
  | dict kvs => exact ⟨kvs, rfl⟩
  | none => simp [vget] at h
  | bool b => simp [vget] at h
  | int n => simp [vget] at h
  | str s => simp [vget] at h
  | list ys => simp [vget] at h

theorem get?_enum_map {α β : Type} (l : List α) (f : Nat × α → β) (i : Nat) :
    (l.enum.map f).get? i = (l.get? i).map (fun a => f (i, a)) := by
  rw [List.get?_map, List.get?_enum]
  cases l.get? i <;> rfl

/-- The questions list of a shuffled exam set: each dict question of the raw
set, shuffled with its per-question stream, then given a `seq`. -/
theorem shuffle_questions_get (E : Val) (seed : Int) (qs : List Val)
    (hqs : vget E "questions" = Val.list qs) (idx : Nat) (q : Val)
    (hq : (qs.filter Val.isDict).get? idx = some q) :
    questionAt (shuffle_exam_set E seed) idx =
      some (ensureSeqMeta (idx + 1)
        (_shuffle_choices_one q (mtStream (seed * 1000003 + idx)))) := by
  obtain ⟨kvs, hE⟩ := isDict_of_vget_list E "questions" qs hqs
  subst hE
  have hne : qs.isEmpty = false := by
    cases qs with
    | nil => simp [List.filter_nil] at hq
    | cons a t => rfl
  unfold shuffle_exam_set questionAt
  rw [hqs]
  simp only [hne, Bool.false_eq_true, if_false, vget_vset_self]
  rw [get?_enum_map, get?_enum_map, hq]
  rfl

/-! ### Facts about the shuffle body -/

theorem shuffleOne_eq_body (q : Val) (draws : Nat → Nat) (cs : List Val)
    (hcs : vget q "choices" = Val.list cs) (hlen : cs.length = 4) :
    _shuffle_choices_one q draws = shuffleOneBody q (cs.map parseChoice) draws := by
  unfold _shuffle_choices_one
  rw [hcs]
  simp [hlen]

theorem shuffleOne_id_of_len_ne (q : Val) (draws : Nat → Nat) (cs : List Val)
    (hcs : vget q "choices" = Val.list cs) (hlen : cs.length ≠ 4) :
    _shuffle_choices_one q draws = q := by
  unfold _shuffle_choices_one
  rw [hcs]
  simp [hlen]

theorem body_choices (kvs : List (String × Val)) (parsed : List (String × String))
    (draws : Nat → Nat) :
    vget (shuffleOneBody (Val.dict kvs) parsed draws) "choices" =
      Val.list ((newChoicesOf parsed draws).map
        (fun pr => Val.list [Val.str pr.1, Val.str pr.2])) := by
  simp only [shuffleOneBody]
  rw [vget_vset_ne_all _ _ _ _ (by decide)]
  rw [vget_setCL_other _ _ _ (by decide) (by decide) (by decide) (by decide)]
  exact vget_vset_self _ _ _

theorem vget_setCL_correct_A (d : Val) (kvs : List (String × Val))
    (hd : d = Val.dict kvs) :
    vget (_set_correct_letters d ["A"]) "correct" = Val.list [Val.str "A"] := by
  subst hd
  unfold _set_correct_letters
  by_cases hm : pyLower (pyStrip (pyStr (pyOr (vget (Val.dict kvs) "type") (Val.str "single"))))
      = "multi" ∨ (["A"] : List String).length > 1
  · rw [if_pos hm]
    rw [vget_vpop_ne_all _ _ _ (by decide), vget_vpop_ne_all _ _ _ (by decide)]
    exact vget_vset_self _ _ _
  · rw [if_neg hm]
    rw [vget_vpop_ne_all _ _ _ (by decide), vget_vset_ne_all _ _ _ _ (by decide)]
    exact vget_vset_self _ _ _

theorem body_correct_of_empty (kvs : List (String × Val))
    (parsed : List (String × String)) (draws : Nat → Nat)
    (h : newCorrectOf (Val.dict kvs) parsed draws = []) :
    vget (shuffleOneBody (Val.dict kvs) parsed draws) "correct" = Val.list [Val.str "A"] := by
  simp only [shuffleOneBody]
  rw [vget_vset_ne_all _ _ _ _ (by decide), h]
  simp only [List.isEmpty_nil, if_true]
  exact vget_setCL_correct_A _ _ rfl

theorem enumMap_fst_eq {γ δ : Type} (l : List (γ × δ)) :
    ((l.enum.map (fun p => (p.2.1, p.1))).map Prod.fst) = l.map Prod.fst := by
  rw [List.map_map]
  have h2 : ((l.enum.map Prod.snd).map Prod.fst) = l.map Prod.fst := by
    rw [List.enum_map_snd]
  rw [← h2, List.map_map]
  rfl

/-- For each pre-shuffle correct letter, the chain of
`label_to_old_index` and `old_index_to_new_index` lookups performed by
`_shuffle_choices_one` resolves to a post-shuffle letter whose choice text is
the text that carried the letter before the shuffle. -/
theorem perLetter (parsed : List (String × String)) (draws : Nat → Nat)
    (hlen : parsed.length = 4)
    (hnd : (parsed.map Prod.fst).Nodup)
    (hsub : ∀ l ∈ parsed.map Prod.fst, l ∈ LETTERS4)
    (lab : String) (hlab : lab ∈ LETTERS4) :
    ∃ nn t,
      (if lab ∈ LETTERS4 then
        (aGet (buildL2O parsed) lab).bind
          (fun oi => (aGet (buildO2N (shuffledInd parsed draws)) oi).map letterAt)
       else Option.none) = some (letterAt nn)
      ∧ nn < 4
      ∧ aGet (newChoicesOf parsed draws) (letterAt nn) = some t
      ∧ aGet parsed lab = some t := by
  have hlablen : (parsed.map Prod.fst).length = 4 := by simp [hlen]
  have hperm : List.Perm (parsed.map Prod.fst) LETTERS4 :=
    (hnd.subperm (fun l hl => hsub l hl)).perm_of_length_le
      (by rw [hlablen]; decide)
  have hlabmem : lab ∈ parsed.map Prod.fst := hperm.mem_iff.mpr hlab
  obtain ⟨pr, hprmem, hpr1⟩ := List.mem_map.mp hlabmem
  obtain ⟨o, ho⟩ := List.mem_iff_get?.mp hprmem
  have hoenum : (o, pr) ∈ parsed.enum := List.mem_enum_iff_get?.mpr ho
  have hl2o : aGet (buildL2O parsed) lab = some o := by
    rw [buildL2O_eq parsed hsub hnd]
    apply aGet_of_mem_nodup
    · rw [enumMap_fst_eq]; exact hnd
    · exact List.mem_map.mpr ⟨(o, pr), hoenum, by simp [hpr1]⟩
  have hindperm : List.Perm (shuffledInd parsed draws) parsed.enum :=
    pyShuffle_perm draws parsed.enum
  have hindmem : (o, pr) ∈ shuffledInd parsed draws := hindperm.mem_iff.mpr hoenum
  obtain ⟨nn, hnn⟩ := List.mem_iff_get?.mp hindmem
  have hindlen : (shuffledInd parsed draws).length = 4 := by
    rw [hindperm.length_eq, List.enum_length, hlen]
  have hnn4 : nn < 4 := by
    have hlt := (List.get?_eq_some.mp hnn).1
    rw [hindlen] at hlt
    exact hlt
  have hfstnd : ((shuffledInd parsed draws).map Prod.fst).Nodup :=
    ((hindperm.map Prod.fst).nodup_iff).mpr (List.nodup_enum_map_fst parsed)
  have ho2n : aGet (buildO2N (shuffledInd parsed draws)) o = some nn := by
    rw [buildO2N_eq _ hfstnd]
    apply aGet_of_mem_nodup
    · rw [enumMap_fst_eq]; exact hfstnd
    · exact List.mem_map.mpr ⟨(nn, (o, pr)), List.mem_enum_iff_get?.mpr hnn, rfl⟩
  have hncfst : ((newChoicesOf parsed draws).map Prod.fst).Nodup := by
    unfold newChoicesOf
    rw [List.map_map]
    show (((shuffledInd parsed draws).enum).map (fun p => letterAt p.1)).Nodup
    have h1 : (((shuffledInd parsed draws).enum).map (fun p => letterAt p.1))
        = ((((shuffledInd parsed draws).enum).map Prod.fst).map letterAt) := by
      rw [List.map_map]
      rfl
    rw [h1, List.enum_map_fst, hindlen]
    decide
  have hnc : aGet (newChoicesOf parsed draws) (letterAt nn) = some pr.2 := by
    apply aGet_of_mem_nodup _ hncfst
    exact List.mem_map.mpr ⟨(nn, (o, pr)), List.mem_enum_iff_get?.mpr hnn, rfl⟩
  have hparsed : aGet parsed lab = some pr.2 := by
    apply aGet_of_mem_nodup _ hnd
    have hpre : pr = (lab, pr.2) := by
      rw [← hpr1]
    exact hpre ▸ hprmem
  refine ⟨nn, pr.2, ?_, hnn4, hnc, hparsed⟩
  rw [if_pos hlab, hl2o]
  simp [ho2n]

theorem map_eq_self_of_mem {α : Type} {l : List α} {f : α → α}
    (h : ∀ a ∈ l, f a = a) : l.map f = l := by
  induction l with
  | nil => rfl
  | cons a t ih => simp [h a (by simp), ih (fun x hx => h x (by simp [hx]))]

/-- Core correctness-preservation fact for one shuffled question, for an
arbitrary draw stream and seq position. -/
theorem shuffled_correct_texts (kvs : List (String × Val)) (draws : Nat → Nat)
    (k : Nat) (cs : List Val)
    (hcs : vget (Val.dict kvs) "choices" = Val.list cs)
    (hlen : cs.length = 4)
    (hnodup : ((cs.map parseChoice).map Prod.fst).Nodup)
    (hlabs : ∀ l ∈ (cs.map parseChoice).map Prod.fst, l ∈ LETTERS4)
    (hcbne : _get_correct_letters (Val.dict kvs) ≠ [])
    (hcb : ∀ l ∈ _get_correct_letters (Val.dict kvs), l ∈ LETTERS4) :
    (_get_correct_letters (ensureSeqMeta k (_shuffle_choices_one (Val.dict kvs) draws))).filterMap
        (textAt (choicePairs (ensureSeqMeta k (_shuffle_choices_one (Val.dict kvs) draws)))) =
      (_get_correct_letters (Val.dict kvs)).filterMap (textAt (cs.map parseChoice)) := by
  set parsed := cs.map parseChoice with hparsedDef
  have hplen : parsed.length = 4 := by rw [hparsedDef, List.length_map, hlen]
  have hbody := shuffleOne_eq_body (Val.dict kvs) draws cs hcs hlen
  set CB := _get_correct_letters (Val.dict kvs) with hCBdef
  set f := (fun lab => (if lab ∈ LETTERS4 then
      (aGet (buildL2O parsed) lab).bind
        (fun oi => (aGet (buildO2N (shuffledInd parsed draws)) oi).map letterAt)
    else Option.none)) with hfdef
  have hfsome : ∀ lab ∈ CB, ∃ nn t, f lab = some (letterAt nn) ∧ nn < 4
      ∧ aGet (newChoicesOf parsed draws) (letterAt nn) = some t
      ∧ aGet parsed lab = some t :=
    fun lab hl => perLetter parsed draws hplen hnodup hlabs lab (hcb lab hl)
  have hNCdef : newCorrectOf (Val.dict kvs) parsed draws = CB.filterMap f := rfl
  have hNCne : newCorrectOf (Val.dict kvs) parsed draws ≠ [] := by
    rw [hNCdef]
    cases hCBc : CB with
    | nil => exact absurd hCBc hcbne
    | cons l t =>
      obtain ⟨nn, tt, hfl, _h1, _h2, _h3⟩ := hfsome l (by rw [hCBc]; exact List.mem_cons_self l t)
      simp [List.filterMap_cons, hfl]
  have hCL : (if (newCorrectOf (Val.dict kvs) parsed draws).isEmpty then ["A"]
      else newCorrectOf (Val.dict kvs) parsed draws) = CB.filterMap f := by
    rw [isEmpty_false_of_ne_nil hNCne]
    simp [hNCdef]
  have hCLne : CB.filterMap f ≠ [] := by rw [← hNCdef]; exact hNCne
  have hCLsub : ∀ l ∈ CB.filterMap f, l ∈ LETTERS4 := by
    intro x hx
    obtain ⟨lab, hlabCB, hfx⟩ := List.mem_filterMap.mp hx
    obtain ⟨nn, tt, hfl, hnn4, _h2, _h3⟩ := hfsome lab hlabCB
    rw [hfl] at hfx
    injection hfx with hfx
    rw [← hfx]
    exact letterAt_lt4_mem nn hnn4
  have hgetq' : _get_correct_letters (ensureSeqMeta k (_shuffle_choices_one (Val.dict kvs) draws))
      = CB.filterMap f := by
    apply getCL_of_layer_some
    rw [getCL_layer_ensureSeq, hbody]
    simp only [shuffleOneBody]
    rw [getCL_layer_vset_meta, hCL]
    exact getCL_layer_setCL _ (dSet kvs "choices" _) rfl _ hCLne hCLsub
  have hindlen : (shuffledInd parsed draws).length = 4 := by
    unfold shuffledInd
    rw [(pyShuffle_perm draws parsed.enum).length_eq, List.enum_length, hplen]
  have hchoices : vget (ensureSeqMeta k (_shuffle_choices_one (Val.dict kvs) draws)) "choices"
      = Val.list ((newChoicesOf parsed draws).map
          (fun pr => Val.list [Val.str pr.1, Val.str pr.2])) := by
    rw [vget_ensureSeq_ne _ _ _ (by decide), hbody]
    exact body_choices kvs parsed draws
  have hcp : choicePairs (ensureSeqMeta k (_shuffle_choices_one (Val.dict kvs) draws))
      = newChoicesOf parsed draws := by
    unfold choicePairs
    rw [hchoices]
    show ((newChoicesOf parsed draws).map
        (fun pr => Val.list [Val.str pr.1, Val.str pr.2])).map parseChoice
      = newChoicesOf parsed draws
    rw [List.map_map]
    apply map_eq_self_of_mem
    intro pr hpr
    obtain ⟨p, hp, hpe⟩ := List.mem_map.mp hpr
    have hp1 : p.1 < 4 := by
      have hlt := fst_lt_of_mem_enum hp
      rw [hindlen] at hlt
      exact hlt
    have hmem : pr.1 ∈ LETTERS4 := by
      rw [← hpe]
      exact letterAt_lt4_mem p.1 hp1
    show (pyUpper (pyStrip (pyStr (Val.str pr.1))), pyStr (Val.str pr.2)) = pr
    rw [show pyStr (Val.str pr.1) = pr.1 from rfl, show pyStr (Val.str pr.2) = pr.2 from rfl,
      clean_letter pr.1 hmem]
  rw [hgetq', hcp, List.filterMap_filterMap]
  apply List.filterMap_congr
  intro lab hlabCB
  obtain ⟨nn, t, hfl, hnn4, hnc, hpar⟩ := hfsome lab hlabCB
  rw [hfl]
  simp [textAt, hnc, hpar]

/-- C3: after `shuffle_exam_set`, for every 4-choice question with distinct
choice labels in A-D and a non-empty correct-letter set contained in A-D,
the choice texts now sitting at the post-shuffle correct letters are exactly
the texts that were marked correct before the shuffle, independent of the
letters they now carry. -/
theorem spec2proof_C3 (E : Val) (seed : Int) (qs : List Val) (idx : Nat) (q : Val)
    (cs : List Val)
    (hqs : vget E "questions" = Val.list qs)
    (hq : (qs.filter Val.isDict).get? idx = some q)
    (hcs : vget q "choices" = Val.list cs)
    (hlen : cs.length = 4)
    (hnodup : ((cs.map parseChoice).map Prod.fst).Nodup)
    (hlabs : ∀ l ∈ (cs.map parseChoice).map Prod.fst, l ∈ LETTERS4)
    (hcbne : _get_correct_letters q ≠ [])
    (hcb : ∀ l ∈ _get_correct_letters q, l ∈ LETTERS4) :
    ∃ q', questionAt (shuffle_exam_set E seed) idx = some q' ∧
      (_get_correct_letters q').filterMap (textAt (choicePairs q')) =
        (_get_correct_letters q).filterMap (textAt (cs.map parseChoice)) := by
  obtain ⟨kvs, hqd⟩ := isDict_of_vget_list q "choices" cs hcs
  subst hqd
  exact ⟨_, shuffle_questions_get E seed qs hqs idx _ hq,
    shuffled_correct_texts kvs (mtStream (seed * 1000003 + idx)) (idx + 1) cs
      hcs hlen hnodup hlabs hcbne hcb⟩

/-- Concrete 4-choice single question used to witness C3: labels in
non-canonical order with two correct letters. -/
def c3q : Val :=
  Val.dict [("id", Val.str "P1-Q1"), ("type", Val.str "multi"),
    ("choices", Val.list [Val.list [Val.str "A", Val.str "alpha"],
      Val.list [Val.str "B", Val.str "beta"],
      Val.list [Val.str "C", Val.str "gamma"],
      Val.list [Val.str "D", Val.str "delta"]]),
    ("correct", Val.list [Val.str "B", Val.str "C"])]

/-- Concrete one-question exam set used to witness C3. -/
def c3E : Val := Val.dict [("questions", Val.list [c3q])]

theorem spec2proof_C3_witness :
    ∃ q', questionAt (shuffle_exam_set c3E 7) 0 = some q' ∧
      (_get_correct_letters q').filterMap (textAt (choicePairs q')) =
        (_get_correct_letters c3q).filterMap
          (textAt (([Val.list [Val.str "A", Val.str "alpha"],
            Val.list [Val.str "B", Val.str "beta"],
            Val.list [Val.str "C", Val.str "gamma"],
            Val.list [Val.str "D", Val.str "delta"]] : List Val).map parseChoice)) :=
  spec2proof_C3 c3E 7 [c3q] 0 c3q _ rfl rfl rfl rfl (by decide) (by decide)
    (by decide) (by decide)

/-- Letters of the rebuilt choice list are always the canonical A-D in
positional order. -/
theorem newChoices_letters (parsed : List (String × String)) (draws : Nat → Nat)
    (hplen : parsed.length = 4) :
    (newChoicesOf parsed draws).map Prod.fst = LETTERS4 := by
  unfold newChoicesOf
  rw [List.map_map]
  show (((shuffledInd parsed draws).enum).map (fun p => letterAt p.1)) = LETTERS4
  have h1 : (((shuffledInd parsed draws).enum).map (fun p => letterAt p.1))
      = ((((shuffledInd parsed draws).enum).map Prod.fst).map letterAt) := by
    rw [List.map_map]
    rfl
  have hlen : (shuffledInd parsed draws).length = 4 := by
    unfold shuffledInd
    rw [(pyShuffle_perm draws parsed.enum).length_eq, List.enum_length, hplen]
  rw [h1, List.enum_map_fst, hlen]
  rfl

/-- The parsed choices of a shuffled 4-choice question are the rebuilt
choice list. -/
theorem shuffled_choicePairs (kvs : List (String × Val)) (draws : Nat → Nat) (k : Nat)
    (cs : List Val) (hcs : vget (Val.dict kvs) "choices" = Val.list cs)
    (hlen : cs.length = 4) :
    choicePairs (ensureSeqMeta k (_shuffle_choices_one (Val.dict kvs) draws))
      = newChoicesOf (cs.map parseChoice) draws := by
  have hplen : (cs.map parseChoice).length = 4 := by rw [List.length_map, hlen]
  have hindlen : (shuffledInd (cs.map parseChoice) draws).length = 4 := by
    unfold shuffledInd
    rw [(pyShuffle_perm draws (cs.map parseChoice).enum).length_eq, List.enum_length, hplen]
  have hchoices : vget (ensureSeqMeta k (_shuffle_choices_one (Val.dict kvs) draws)) "choices"
      = Val.list ((newChoicesOf (cs.map parseChoice) draws).map
          (fun pr => Val.list [Val.str pr.1, Val.str pr.2])) := by
    rw [vget_ensureSeq_ne _ _ _ (by decide), shuffleOne_eq_body _ _ cs hcs hlen]
    exact body_choices kvs (cs.map parseChoice) draws
  unfold choicePairs
  rw [hchoices]
  show ((newChoicesOf (cs.map parseChoice) draws).map
      (fun pr => Val.list [Val.str pr.1, Val.str pr.2])).map parseChoice
    = newChoicesOf (cs.map parseChoice) draws
  rw [List.map_map]
  apply map_eq_self_of_mem
  intro pr hpr
  obtain ⟨p, hp, hpe⟩ := List.mem_map.mp hpr
  have hp1 : p.1 < 4 := by
    have hlt := fst_lt_of_mem_enum hp
    rw [hindlen] at hlt
    exact hlt
  have hmem : pr.1 ∈ LETTERS4 := by
    rw [← hpe]
    exact letterAt_lt4_mem p.1 hp1
  show (pyUpper (pyStrip (pyStr (Val.str pr.1))), pyStr (Val.str pr.2)) = pr
  rw [show pyStr (Val.str pr.1) = pr.1 from rfl, show pyStr (Val.str pr.2) = pr.2 from rfl,
    clean_letter pr.1 hmem]

/-- C8 (amended): after `shuffle_exam_set`, every question with exactly 4
choices carries the letters A, B, C, D exactly once each in positional
order; a question whose choice count differs from 4 (such as a 6-choice
summary question) keeps its `choices` field — letters included — exactly as
the merge produced it. -/
theorem spec2proof_C8_amended (E : Val) (seed : Int) (qs : List Val) (idx : Nat)
    (q : Val) (cs : List Val)
    (hqs : vget E "questions" = Val.list qs)
    (hq : (qs.filter Val.isDict).get? idx = some q)
    (hcs : vget q "choices" = Val.list cs) :
    (cs.length = 4 → ∃ q', questionAt (shuffle_exam_set E seed) idx = some q' ∧
      (choicePairs q').map Prod.fst = ["A", "B", "C", "D"])
    ∧ (cs.length ≠ 4 → ∃ q', questionAt (shuffle_exam_set E seed) idx = some q' ∧
      vget q' "choices" = vget q "choices") := by
  obtain ⟨kvs, hqd⟩ := isDict_of_vget_list q "choices" cs hcs
  subst hqd
  constructor
  · intro hlen
    refine ⟨_, shuffle_questions_get E seed qs hqs idx _ hq, ?_⟩
    rw [shuffled_choicePairs kvs _ _ cs hcs hlen]
    exact newChoices_letters _ _ (by rw [List.length_map, hlen])
  · intro hlen
    refine ⟨_, shuffle_questions_get E seed qs hqs idx _ hq, ?_⟩
    rw [vget_ensureSeq_ne _ _ _ (by decide), shuffleOne_id_of_len_ne _ _ cs hcs hlen]

/-- Concrete 6-choice summary question whose bank-supplied letters are not
A-F, used to refute the second half of C8 as stated. -/
def c8q : Val :=
  Val.dict [("id", Val.str "P1-Q10"), ("type", Val.str "summary"),
    ("choices", Val.list [Val.list [Val.str "G", Val.str "s1"],
      Val.list [Val.str "H", Val.str "s2"],
      Val.list [Val.str "I", Val.str "s3"],
      Val.list [Val.str "J", Val.str "s4"],
      Val.list [Val.str "K", Val.str "s5"],
      Val.list [Val.str "L", Val.str "s6"]]),
    ("correct", Val.list [Val.str "G"])]

/-- Concrete exam set holding `c8q`. -/
def c8E : Val := Val.dict [("questions", Val.list [c8q])]

/-- Concrete 4-choice question used only to witness the C8 statement. -/
def c8q4 : Val :=
  Val.dict [("id", Val.str "P2-Q1"),
    ("choices", Val.list [Val.list [Val.str "A", Val.str "u1"],
      Val.list [Val.str "B", Val.str "u2"],
      Val.list [Val.str "C", Val.str "u3"],
      Val.list [Val.str "D", Val.str "u4"]]),
    ("correct", Val.str "C")]

/-- Concrete two-question exam set (one 4-choice, one 6-choice) used only to
witness the C8 statement. -/
def c8E4 : Val := Val.dict [("questions", Val.list [c8q4, c8q])]

theorem spec2proof_C8_amended_witness :
    (∃ q', questionAt (shuffle_exam_set c8E4 7) 0 = some q' ∧
      (choicePairs q').map Prod.fst = ["A", "B", "C", "D"]) ∧
    (∃ q', questionAt (shuffle_exam_set c8E4 7) 1 = some q' ∧
      vget q' "choices" = vget c8q "choices") := by
  constructor
  · exact (spec2proof_C8_amended c8E4 7 [c8q4, c8q] 0 c8q4 _ rfl rfl rfl).1 rfl
  · exact (spec2proof_C8_amended c8E4 7 [c8q4, c8q] 1 c8q _ rfl rfl rfl).2 (by decide)

theorem spec2proof_C8_counterexample :
    ∃ q', questionAt (shuffle_exam_set c8E 7) 0 = some q' ∧
      (choicePairs q').map Prod.fst = ["G", "H", "I", "J", "K", "L"] ∧
      ¬ (∀ l ∈ (choicePairs q').map Prod.fst, l ∈ ["A", "B", "C", "D", "E", "F"]) := by
  refine ⟨_, shuffle_questions_get c8E 7 [c8q] rfl 0 c8q rfl, ?_, ?_⟩
  · rfl
  · decide

/-- C10: after `shuffle_exam_set`, every 4-choice question whose pre-shuffle
correct-letter set contains no letter of A-D (in particular an empty set)
comes out with correct answer exactly ["A"]: a default correct choice is
fabricated at post-shuffle letter A. -/
theorem spec2proof_C10 (E : Val) (seed : Int) (qs : List Val) (idx : Nat) (q : Val)
    (cs : List Val)
    (hqs : vget E "questions" = Val.list qs)
    (hq : (qs.filter Val.isDict).get? idx = some q)
    (hcs : vget q "choices" = Val.list cs)
    (hlen : cs.length = 4)
    (hcb : ∀ l ∈ _get_correct_letters q, l ∉ LETTERS4) :
    ∃ q', questionAt (shuffle_exam_set E seed) idx = some q' ∧
      vget q' "correct" = Val.list [Val.str "A"] := by
  obtain ⟨kvs, hqd⟩ := isDict_of_vget_list q "choices" cs hcs
  subst hqd
  refine ⟨_, shuffle_questions_get E seed qs hqs idx _ hq, ?_⟩
  rw [vget_ensureSeq_ne _ _ _ (by decide), shuffleOne_eq_body _ _ cs hcs hlen]
  apply body_correct_of_empty
  unfold newCorrectOf newCorrectLetters
  rw [List.filterMap_eq_nil]
  intro lab hlab
  rw [if_neg (hcb lab hlab)]

/-- Concrete 4-choice question whose embedded correct value is not a valid
letter, used to witness C10. -/
def c10q : Val :=
  Val.dict [("id", Val.str "P1-Q2"),
    ("choices", Val.list [Val.list [Val.str "A", Val.str "w"],
      Val.list [Val.str "B", Val.str "x"],
      Val.list [Val.str "C", Val.str "y"],
      Val.list [Val.str "D", Val.str "z"]]),
    ("correct", Val.str "X")]

/-- Concrete exam set holding `c10q`. -/
def c10E : Val := Val.dict [("questions", Val.list [c10q])]

theorem spec2proof_C10_witness :
    ∃ q', questionAt (shuffle_exam_set c10E 3) 0 = some q' ∧
      vget q' "correct" = Val.list [Val.str "A"] :=
  spec2proof_C10 c10E 3 [c10q] 0 c10q _ rfl rfl rfl rfl (by decide)

/-- C4: `shuffle_exam_set` is deterministic — its embedding is a pure
function of the exam set and the integer seed (the rng stream is derived
from the seed alone), so two invocations on identical input are identical:
same choice order, same remapped correct letters, same recorded metadata. -/
theorem spec2proof_C4 (E1 E2 : Val) (s1 s2 : Int) (hE : E1 = E2) (hs : s1 = s2) :
    shuffle_exam_set E1 s1 = shuffle_exam_set E2 s2 := by
  rw [hE, hs]

theorem spec2proof_C4_witness :
    shuffle_exam_set (Val.dict [("questions", Val.list [])]) 7
      = shuffle_exam_set (Val.dict [("questions", Val.list [])]) 7 :=
  spec2proof_C4 _ _ 7 7 rfl rfl

/-- C7: `shuffle_exam_set` never mutates its argument: in the call protocol
the caller's exam set observed after the call is the argument itself (every
write in the source targets `copy.deepcopy(exam_set)`). -/
theorem spec2proof_C7 (E : Val) (seed : Int) :
    (shuffle_exam_set_call E seed).1 = E := rfl

/-! ## routes/exam_routes.py -/

/-- The module constant `LETTERS = ["A", "B", "C", "D", "E", "F"]`. -/
def LETTERS6 : List String := ["A", "B", "C", "D", "E", "F"]

/-- `s.replace(",", "").replace(" ", "")`. -/
def removeSeps (s : String) : String :=
  String.mk (s.data.filter (fun c => c ≠ ',' ∧ c ≠ ' '))

/-- Python `s.startswith(pre)` (structural, so that closed instances reduce). -/
def strStartsWith (s pre : String) : Bool := pre.data.isPrefixOf s.data

/-- Python `str.isdigit()` for ASCII data: nonempty and all digits. -/
def pyIsDigitStr (s : String) : Bool := ¬ s.data.isEmpty ∧ s.data.all Char.isDigit

/-- `_normalize_correct_value` of `exam_routes.py` (lines 90-112). -/
def _normalize_correct_value : Val → List String
  | Val.none => []
  | Val.list xs =>
    xs.filterMap (fun x =>
      let t := pyStrip (pyStr x)
      if t = "" then Option.none else some (pyUpper t))
  | v =>
    let s := pyUpper (pyStrip (pyStr v))
    if s = "" then []
    else
      let s2 := removeSeps s
      if s2.length = 1 then [s2]
      else if pyIsDigitStr s2 then
        s2.data.filterMap (fun ch =>
          let i := ch.toNat - 48
          if i < 6 then some (LETTERS6.getD i "") else Option.none)
      else
        s2.data.filterMap (fun ch =>
          if (String.mk [ch]) ∈ LETTERS6 then some (String.mk [ch]) else Option.none)

/-- Leftmost maximal digit run, the `re.search(r"(\d+)", s)` capture. -/
def firstDigitRun : List Char → Option (List Char)
  | [] => Option.none
  | c :: rest =>
    if c.isDigit then some (c :: rest.takeWhile Char.isDigit) else firstDigitRun rest

/-- `_extract_passage_no` of `_build_correct_answers` (lines 145-153). -/
def _extract_passage_no (examId : Val) : Option Int :=
  let s := pyStrip (pyStr (pyOr examId (Val.str "")))
  match firstDigitRun s.data with
  | some ds => some ((digitsToNat ds : Nat) : Int)
  | Option.none => Option.none

/-- Backward acceptance of the mandatory-separator tail
`\s*[-_ ]\s*(\d+)` of the first `_extract_qno` regex, on reversed input:
either one of `-`/`_` after optional whitespace followed by at least one
digit, or the separator is a space inside the whitespace run directly
followed by a digit. -/
def pat1core (w : List Char) : Bool :=
  let run := w.takeWhile isPySpace
  let rest := w.dropWhile isPySpace
  match rest with
  | c :: rest2 =>
    if c = '-' ∨ c = '_' then
      ¬ ((rest2.dropWhile isPySpace).takeWhile Char.isDigit).isEmpty
    else if c.isDigit then run.contains ' '
    else false
  | [] => false

/-- First `_extract_qno` regex: search of
`(\d+)\s*[-_ ]\s*(?:Q|q)?\s*(\d+)$` returning group 2 (the trailing digit
run), implemented as a backward parse from the end of the string. -/
def qnoPat1 (s : String) : Option Int :=
  let r := s.data.reverse
  let d2 := r.takeWhile Char.isDigit
  let r1 := r.dropWhile Char.isDigit
  if d2.isEmpty then Option.none
  else
    let r2 := r1.dropWhile isPySpace
    let ok := match r2 with
      | c :: rest => if c = 'Q' ∨ c = 'q' then pat1core rest else pat1core r1
      | [] => false
    if ok then some ((digitsToNat d2.reverse : Nat) : Int) else Option.none

/-- Second `_extract_qno` regex: search of
`[Pp]\s*(\d+)\s*[-_ ]?\s*[Qq]\s*(\d+)$` returning group 2, as a backward
parse. -/
def qnoPat2 (s : String) : Option Int :=
  let r := s.data.reverse
  let d2 := r.takeWhile Char.isDigit
  let r1 := r.dropWhile Char.isDigit
  if d2.isEmpty then Option.none
  else
    let r2 := r1.dropWhile isPySpace
    match r2 with
    | c :: rest =>
      if c = 'Q' ∨ c = 'q' then
        let w := rest.dropWhile isPySpace
        let w2 := match w with
          | c2 :: rest2 => if c2 = '-' ∨ c2 = '_' then rest2.dropWhile isPySpace else w
          | [] => w
        let d1 := w2.takeWhile Char.isDigit
        let w3 := (w2.dropWhile Char.isDigit).dropWhile isPySpace
        if d1.isEmpty then Option.none
        else
          match w3 with
          | c3 :: _ =>
            if c3 = 'P' ∨ c3 = 'p' then some ((digitsToNat d2.reverse : Nat) : Int)
            else Option.none
          | [] => Option.none
      else Option.none
    | [] => Option.none

/-- Third `_extract_qno` regex: search of `(?:^|[^0-9])[Qq]\s*(\d+)$`
returning group 1, as a backward parse. -/
def qnoPat3 (s : String) : Option Int :=
  let r := s.data.reverse
  let d1 := r.takeWhile Char.isDigit
  let r1 := r.dropWhile Char.isDigit
  if d1.isEmpty then Option.none
  else
    let r2 := r1.dropWhile isPySpace
    match r2 with
    | c :: rest =>
      if c = 'Q' ∨ c = 'q' then
        match rest with
        | [] => some ((digitsToNat d1.reverse : Nat) : Int)
        | c2 :: _ =>
          if c2.isDigit then Option.none else some ((digitsToNat d1.reverse : Nat) : Int)
      else Option.none
    | [] => Option.none

/-- `_extract_qno` of `_build_correct_answers` (lines 155-173): three regex
attempts in priority order. -/
def _extract_qno (qid : String) : Option Int :=
  let s := pyStrip qid
  match qnoPat1 s with
  | some n => some n
  | Option.none =>
    match qnoPat2 s with
    | some n => some n
    | Option.none => qnoPat3 s

/-- The `q_by_id` dict of `_build_correct_answers` (lines 137-143): last
write wins per id, matching dict assignment. -/
def buildQById (questions : List Val) : List (String × Val) :=
  questions.foldl (fun m q =>
    match q with
    | Val.dict kvs =>
      let qid := pyStrip (pyStr (vgetD (Val.dict kvs) "id" (Val.str "")))
      if qid = "" then m else dSet m qid (Val.dict kvs)
    | _ => m) []

/-- `_get_old_to_new_map_for_qid` (lines 175-183). -/
def _get_old_to_new_map_for_qid (qById : List (String × Val)) (qid : String) :
    Option (List (String × Val)) :=
  match dGet qById qid with
  | some q =>
    (match vget q "meta" with
     | Val.dict mkvs =>
       (match dGet mkvs "old_to_new_letter" with
        | some (Val.dict m) => some m
        | _ => Option.none)
     | _ => Option.none)
  | Option.none => Option.none

/-- `_remap_if_shuffled` (lines 185-207): remap a resolved correct value
through the question's recorded old-to-new letter map when present. -/
def _remap_if_shuffled (qById : List (String × Val)) (qid : String) (val : Val) : Val :=
  match _get_old_to_new_map_for_qid qById qid with
  | Option.none => val
  | some m =>
    if m.isEmpty then val
    else
      match val with
      | Val.str s =>
        let v := pyUpper (pyStrip s)
        (dGet m v).getD (Val.str v)
      | Val.list xs =>
        Val.list (xs.filterMap (fun x =>
          match x with
          | Val.str s =>
            let v := pyUpper (pyStrip s)
            some ((dGet m v).getD (Val.str v))
          | _ => Option.none))
      | other => other

/-- `_put` (lines 209-219): normalize, optionally remap, and write. -/
def _put (qById : List (String × Val)) (out : List (String × Val)) (qid : String)
    (rawCorrect : Val) : List (String × Val) :=
  let norm := _normalize_correct_value rawCorrect
  if norm.isEmpty then out
  else
    let val : Val := if norm.length = 1 then Val.str (norm.headD "") else Val.list (norm.map Val.str)
    dSet out qid (_remap_if_shuffled qById qid val)

/-- `_build_correct_answers` of `exam_routes.py` (lines 115-272).  The
answer-key file contents (`_load_answer_keys()`, a missing or unparseable
file giving the empty dict) are the explicit `keys` parameter. -/
def _build_correct_answers (keys : Val) (examSet : Val) : Val :=
  let questions : List Val := match vget examSet "questions" with
    | Val.list qs => qs
    | _ => []
  let qById := buildQById questions
  let passageNo := _extract_passage_no (vget examSet "id")
  let out1 : List (String × Val) :=
    match passageNo, keys with
    | some pno, Val.list rows =>
      let row := rows.find? (fun r =>
        match r with
        | Val.dict rkvs =>
          (match pyInt (pyOr (vget (Val.dict rkvs) "id") (Val.int 0)) with
           | some rid => rid == pno
           | Option.none => false)
        | _ => false)
      (match row with
       | some r =>
         (match vget r "answers" with
          | Val.list answers =>
            if answers.isEmpty then []
            else
              questions.foldl (fun out q =>
                match q with
                | Val.dict qkvs =>
                  let qid := pyStrip (pyStr (vgetD (Val.dict qkvs) "id" (Val.str "")))
                  if qid = "" then out
                  else
                    (match _extract_qno qid with
                     | some qno =>
                       if qno ≠ 0 ∧ 1 ≤ qno ∧ qno ≤ answers.length then
                         _put qById out qid (answers.getD (qno - 1).toNat Val.none)
                       else out
                     | Option.none => out)
                | _ => out) []
          | _ => [])
       | Option.none => [])
    | _, _ => []
  let out2 : List (String × Val) :=
    match keys with
    | Val.dict kitems =>
      kitems.foldl (fun out kv =>
        let kk := pyStrip kv.1
        if strStartsWith (pyLower kk) "q" then _put qById out kk kv.2 else out) out1
    | _ => out1
  let out3 : List (String × Val) :=
    questions.foldl (fun out q =>
      match q with
      | Val.dict qkvs =>
        let qid := pyStrip (pyStr (vgetD (Val.dict qkvs) "id" (Val.str "")))
        if qid = "" then out
        else if (dGet out qid).isSome then out
        else _put qById out qid (vget (Val.dict qkvs) "correct")
      | _ => out) out2
  Val.dict out3

/-- Question demonstrating the C1 divergence: a shuffled question whose
embedded post-shuffle `correct` is `["B"]` and whose recorded old-to-new
letter map swaps A and B, with no entry for it in the answer-key file. -/
def c1q : Val :=
  Val.dict [("id", Val.str "P1-Q1"), ("correct", Val.list [Val.str "B"]),
    ("meta", Val.dict [("old_to_new_letter",
      Val.dict [("A", Val.str "B"), ("B", Val.str "A"),
        ("C", Val.str "C"), ("D", Val.str "D")])])]

/-- Exam set holding `c1q`. -/
def c1E : Val := Val.dict [("id", Val.str "reading-P1"), ("questions", Val.list [c1q])]

/-- C1 (code divergence): the resolver's priority-3 fallback, the question's
own embedded `correct` field, IS passed through the recorded old-to-new
letter map by `_put`: with an empty answer-key file, the embedded
post-shuffle value `["B"]` comes back remapped to `"A"`, not used as-is.
The source's own comment calls the embedded value "already shuffled
correctly", so remapping it contradicts the code's stated intent. -/
theorem spec2proof_C1 :
    vget c1q "correct" = Val.list [Val.str "B"] ∧
    _build_correct_answers (Val.dict []) c1E = Val.dict [("P1-Q1", Val.str "A")] :=
  ⟨rfl, rfl⟩

/-! ## services/exam_services.py (with services/q10_repo.py) -/

/-- `_as_str` of `exam_services.py` (lines 91-94). -/
def _as_str : Val → String
  | Val.none => ""
  | v => pyStrip (pyStr v)

/-- Remove every occurrence of `pat` from `cs` left to right
(`s.replace(pat, "")`), fuelled by the input length. -/
def removeSubAux (pat : List Char) : Nat → List Char → List Char
  | 0, cs => cs
  | fuel + 1, cs =>
    if cs.take pat.length = pat ∧ ¬ pat.isEmpty then
      removeSubAux pat fuel (cs.drop pat.length)
    else
      match cs with
      | [] => []
      | c :: rest => c :: removeSubAux pat fuel rest

/-- `s.replace(pat, "")`. -/
def removeSub (s pat : String) : String :=
  String.mk (removeSubAux pat.data s.data.length s.data)

/-- `_norm_pid` of `exam_services.py` (lines 160-177). -/
def _norm_pid (pid : Val) : String :=
  let s0 := pyUpper (_as_str pid)
  if s0 = "" then ""
  else
    let s := if strStartsWith s0 "READING-" then pyStrip (removeSub s0 "READING-") else s0
    if strStartsWith s "P" then
      let tail := pyStrip (s.drop 1)
      if pyIsDigitStr tail then "P" ++ toString (digitsToNat tail.data) else s
    else if pyIsDigitStr s then "P" ++ toString (digitsToNat s.data)
    else s

/-- The `_Q10_BY_PASSAGE` index built by `load_q10_bank` of `q10_repo.py`
(lines 19-47); the bank file contents are the explicit parameter.  A
non-list bank raises `ValueError` in the source. -/
def load_q10_by_passage (bank : Val) : Except String (List (Int × Val)) :=
  match bank with
  | Val.list items =>
    Except.ok (items.foldl (fun m it =>
      match it with
      | Val.dict kvs =>
        (match dGet kvs "passage_no" with
         | some v =>
           (match pyIsInt v with
            | some pno => aIns m pno (Val.dict kvs)
            | Option.none => m)
         | Option.none => m)
      | _ => m) [])
  | _ => Except.error "ValueError: q10_bank.json must be a JSON list"

/-- `get_q10_item` of `q10_repo.py` (lines 50-56). -/
def get_q10_item (bank : Val) (passage_no : Int) : Except String (Option Val) :=
  (load_q10_by_passage bank).map (fun m => aGet m passage_no)

/-- `get_q10_question` of `q10_repo.py` (lines 59-93). -/
def get_q10_question (bank : Val) (passage_no : Int) : Except String (Option Val) := do
  let item? ← get_q10_item bank passage_no
  match item? with
  | Option.none => return Option.none
  | some item =>
    if ¬ truthy item then return Option.none
    else
      match vget item "q10" with
      | Val.dict qkvs =>
        let out := Val.dict qkvs
        let out := vset out "id" (Val.str ("P" ++ toString passage_no ++ "-Q10"))
        let out := if ¬ truthy (vget out "type") then vset out "type" (Val.str "summary") else out
        let out := if ¬ (vhas out "prompt") ∧ (vhas out "stem") then
            vset out "prompt" (pyOr (vget out "stem") (Val.str ""))
          else out
        let mkvs := match vget out "meta" with
          | Val.dict m => m
          | _ => []
        let mkvs := if (dGet mkvs "question_no").isSome then mkvs
          else dSet mkvs "question_no" (Val.int 10)
        return some (vset out "meta" (Val.dict mkvs))
      | _ => return Option.none

/-- `_lookup_q10_correct_from_answer_keys` of `exam_services.py`
(lines 461-508), returning the resolved Q10 answer string (or `none`) and
the warnings appended.  The surrounding `try/except` only fires on file-read
errors, which the explicit payload parameter excludes. -/
def _lookup_q10_correct_from_answer_keys (keysPayload : Val) (passage_no : Int) :
    Option String × List String :=
  match keysPayload with
  | Val.list rows =>
    let row := rows.find? (fun r =>
      match r with
      | Val.dict rkvs =>
        (match pyInt (pyOr (vget (Val.dict rkvs) "id") (Val.int 0)) with
         | some rid => rid == passage_no
         | Option.none => false)
      | _ => false)
    (match row with
     | Option.none =>
       (Option.none, ["P" ++ toString passage_no ++ ": not found in answer_keys.json."])
     | some r =>
       if ¬ truthy r then
         (Option.none, ["P" ++ toString passage_no ++ ": not found in answer_keys.json."])
       else
         match vget r "answers" with
         | Val.list answers =>
           if answers.length < 10 then
             (Option.none, ["P" ++ toString passage_no ++ ": invalid answers list in answer_keys.json."])
           else
             (match answers.getD 9 Val.none with
              | Val.str q10 =>
                let s := pyUpper (pyStrip q10)
                if s = "" then
                  (Option.none, ["P" ++ toString passage_no ++ ": Q10 answer empty."])
                else (some s, [])
              | _ =>
                (Option.none, ["P" ++ toString passage_no ++ ": Q10 answer is not a string."]))
         | _ =>
           (Option.none, ["P" ++ toString passage_no ++ ": invalid answers list in answer_keys.json."]))
  | _ => (Option.none, ["answer_keys.json root is not a list."])

/-- `f"p{passage_no:02d}_q10"` zero-pad of the passage number. -/
def pad2 (n : Int) : String :=
  if 0 ≤ n ∧ n < 10 then "0" ++ toString n else toString n

/-- `^P(\d+)$` (case-insensitive) applied to the normalized passage id. -/
def parseWantP (want : String) : Option Int :=
  match want.data with
  | c :: rest =>
    if (c = 'P' ∨ c = 'p') ∧ ¬ rest.isEmpty ∧ rest.all Char.isDigit then
      some ((digitsToNat rest : Nat) : Int)
    else Option.none
  | [] => Option.none

/-- `_load_q10_question_for_passage` of `exam_services.py` (lines 512-567),
with the Q10 bank and answer-key payloads as explicit parameters.  The
result is `Except.error` exactly where the source raises: on a non-list Q10
bank, on an unconvertible `max_selections`, and — the path relevant to C2 —
on the final `[ch for ch in correct_q10]` when the answer lookup returned
`None` (iterating `None` raises `TypeError`; the warning appended just
before the raise never reaches the caller's result). -/
def _load_q10_question_for_passage (q10bank keysPayload : Val) (passage_id : String) :
    Except String (Option Val × List String) := do
  let want := _norm_pid (Val.str passage_id)
  if want = "" then
    return (Option.none, ["Q10 lookup: empty passage_id after normalization."])
  else
    match parseWantP want with
    | Option.none => return (Option.none, [want ++ ": Q10 lookup: invalid passage_id format."])
    | some passage_no => do
      let q10? ← get_q10_question q10bank passage_no
      match q10? with
      | Option.none => return (Option.none, [want ++ ": Q10 not found in q10_bank.json."])
      | some q10 =>
        if ¬ truthy q10 then
          return (Option.none, [want ++ ": Q10 not found in q10_bank.json."])
        else
          let qid := let a := _as_str (vget q10 "qid")
            if a ≠ "" then a else "p" ++ pad2 passage_no ++ "_q10"
          let prompt := _as_str (vget q10 "prompt")
          let intro := _as_str (vget q10 "intro")
          match pyInt (pyOr (vget q10 "max_selections") (Val.int 3)) with
          | Option.none => Except.error "TypeError: int() argument invalid"
          | some maxSel =>
            let choicesOut : List (String × String) :=
              match vget q10 "choices" with
              | Val.list items =>
                items.filterMap (fun it =>
                  match it with
                  | Val.dict ikvs =>
                    let cid := pyUpper (_as_str (vget (Val.dict ikvs) "id"))
                    let text := _as_str (vget (Val.dict ikvs) "text")
                    if cid ≠ "" ∧ text ≠ "" then some (cid, text) else Option.none
                  | _ => Option.none)
              | _ => []
            if choicesOut.length ≠ 6 then
              return (Option.none,
                [qid ++ ": Q10 choices expected 6, got " ++ toString choicesOut.length ++ "."])
            else
              match _lookup_q10_correct_from_answer_keys keysPayload passage_no with
              | (Option.none, _warns) =>
                Except.error "TypeError: argument of type NoneType is not iterable"
              | (some s, warns) =>
                return (some (Val.dict [
                  ("id", Val.str qid),
                  ("type", Val.str "summary"),
                  ("prompt", Val.str prompt),
                  ("intro", Val.str intro),
                  ("max_selections", Val.int maxSel),
                  ("choices", Val.list (choicesOut.map
                    (fun pr => Val.list [Val.str pr.1, Val.str pr.2]))),
                  ("correct", Val.list (s.data.map (fun ch => Val.str (String.mk [ch])))),
                  ("meta", Val.dict [("question_type", Val.str "summary")])]), warns)

/-- Q10 bank used for the C2 demonstration: a valid entry for passage 1 with
six well-formed choices. -/
def c2bank : Val :=
  Val.list [Val.dict [("passage_no", Val.int 1),
    ("q10", Val.dict [("prompt", Val.str "Select three."),
      ("choices", Val.list [
        Val.dict [("id", Val.str "A"), ("text", Val.str "s1")],
        Val.dict [("id", Val.str "B"), ("text", Val.str "s2")],
        Val.dict [("id", Val.str "C"), ("text", Val.str "s3")],
        Val.dict [("id", Val.str "D"), ("text", Val.str "s4")],
        Val.dict [("id", Val.str "E"), ("text", Val.str "s5")],
        Val.dict [("id", Val.str "F"), ("text", Val.str "s6")]])])]]

/-- C2 (code divergence): for a passage whose Q10 supplementary entry exists
and is well-formed but whose correct answer cannot be resolved from the
answer-key file (here: an answer-key file with no rows), the merge step does
not omit the question and continue — it raises `TypeError` from
`[ch for ch in correct_q10]` with `correct_q10 = None`, aborting exam
assembly. -/
theorem spec2proof_C2 :
    _load_q10_question_for_passage c2bank (Val.list []) "P1"
      = Except.error "TypeError: argument of type NoneType is not iterable" := rfl

/-- `_ensure_seq` of `exam_services.py` (lines 180-192). -/
def ensure_seq_service (es : Val) : Val :=
  match vget es "questions" with
  | Val.list qs =>
    vset es "questions" (Val.list (qs.enum.map (fun p =>
      match p.2 with
      | Val.dict _ => ensureSeqMeta (p.1 + 1) p.2
      | _ => p.2)))
  | _ => es

/-- `create_attempt` of `exam_services.py` (lines 663-696).  The ambient
inputs are explicit parameters: `pick` is the `pick_full_exam_set_for_attempt`
bank-assembly pipeline as a function of the seed it is given, `counter` is
`store.ATTEMPT_COUNTER`, `now` is `int(time.time())`, and `draw` is the
result of the single `random.randint(1, 10**9)` call on line 667.  Returns
the updated counter, the attempt id, and the stored attempt dict; note that
the one `seed = draw` value is stored under both `"shuffle_seed"` and
`"passage_seed"`. -/
def create_attempt (pick : Int → Val) (counter : Nat) (now : Int) (draw : Int)
    (minutes : Int) (mode : String) (single_index : Int) : Nat × String × Val :=
  let counter' := counter + 1
  let attempt_id := toString counter'
  let seed := draw
  let m0 := if mode = "" then "full" else mode
  let mode_n0 := pyLower (pyStrip m0)
  let mode_n := if mode_n0 = "full" ∨ mode_n0 = "single" then mode_n0 else "full"
  let si := max 1 (min 10 single_index)
  let raw := ensure_seq_service (pick seed)
  (counter', attempt_id, Val.dict [
    ("minutes", Val.int minutes),
    ("started_at", Val.int now),
    ("submitted", Val.bool false),
    ("timed_out", Val.bool false),
    ("result", Val.none),
    ("raw_exam_set", raw),
    ("shuffle_seed", Val.int seed),
    ("passage_seed", Val.int seed),
    ("mode", Val.str mode_n),
    ("single_index", Val.int si),
    ("answers", Val.dict []),
    ("shuffled_exam_set", Val.none)])

/-- C9 counterexample: the stored passage-selection seed and shuffle seed are
not two separate draws — `create_attempt` draws once (`random.randint` on
line 667) and stores that single value 42 in both fields. -/
theorem spec2proof_C9_counterexample :
    vget (create_attempt (fun _ => Val.dict []) 0 1700000000 42 18 "full" 1).2.2
        "passage_seed" = Val.int 42 ∧
    vget (create_attempt (fun _ => Val.dict []) 0 1700000000 42 18 "full" 1).2.2
        "shuffle_seed" = Val.int 42 :=
  ⟨rfl, rfl⟩

/-- C9 (amended): every attempt created by `create_attempt` stores integer
seeds under both `"passage_seed"` and `"shuffle_seed"`, but they are one
shared value: the two fields are always equal. -/
theorem spec2proof_C9_amended (pick : Int → Val) (counter : Nat)
    (now draw minutes : Int) (mode : String) (si : Int) :
    vget (create_attempt pick counter now draw minutes mode si).2.2 "passage_seed"
      = vget (create_attempt pick counter now draw minutes mode si).2.2 "shuffle_seed" := rfl

/-! ## services/grader.py -/

/-- The scaled-score table for the canonical total of 11 raw points
(`scale_reading_score`, lines 199-214); `table.get(key, 0)` defaults to 0. -/
def table11 (n : Int) : Int :=
  if n = 11 then 30 else if n = 10 then 29 else if n = 9 then 28
  else if n = 8 then 27 else if n = 7 then 26 else if n = 6 then 25
  else if n = 5 then 23 else if n = 4 then 20 else if n = 3 then 16
  else if n = 2 then 12 else if n = 1 then 7 else if n = 0 then 0 else 0

/-- Python `round()` ties-to-even (banker's rounding) on exact rationals.
The source computes `round(sp * 11.0 / float(total_points))` in double
precision; for every raw/total pair the service can see, the double quotient
rounds to the same integer as the exact rational, so the model uses exact
rational arithmetic. -/
def roundHalfEven (q : ℚ) : Int :=
  let f := ⌊q⌋
  let r := q - f
  if r < 1 / 2 then f
  else if 1 / 2 < r then f + 1
  else if f % 2 = 0 then f else f + 1

/-- `scale_reading_score` of `grader.py` (lines 194-228). -/
def scale_reading_score (score_points total_points : Int) : Int :=
  if total_points = 11 then
    max 0 (min 30 (table11 score_points))
  else if total_points ≤ 0 then 0
  else
    let sp := max 0 (min score_points total_points)
    let eq_raw_11 := roundHalfEven ((sp : ℚ) * 11 / (total_points : ℚ))
    max 0 (min 30 (table11 eq_raw_11))

/-- `set(user) == set(correct)` on letter lists. -/
def listSetEq (u c : List String) : Bool := u.all (· ∈ c) ∧ c.all (· ∈ u)

/-- `_score_single` of `grader.py` (lines 155-163). -/
def _score_single (user correct : List String) : Int × Int × Bool :=
  if correct.isEmpty then (0, 1, false)
  else if user.length ≠ 1 then (0, 1, false)
  else
    let ok := if correct.length = 1 then user.headD "" = correct.headD ""
      else user.headD "" ∈ correct
    (if ok then 1 else 0, 1, ok)

/-- `_score_multi_exact` of `grader.py` (lines 166-175). -/
def _score_multi_exact (user correct : List String) : Int × Int × Bool :=
  if correct.isEmpty then (0, 1, false)
  else
    let ok := listSetEq user correct ∧ user.length > 0
    (if ok then 1 else 0, 1, ok)

/-- `_score_summary_q10` of `grader.py` (lines 178-191). -/
def _score_summary_q10 (user correct : List String) : Int × Int × Bool :=
  if correct.isEmpty then (0, 2, false)
  else if user.length = 0 then (0, 2, false)
  else
    let ok := listSetEq user correct
    (if ok then 2 else 0, 2, ok)

/-- The per-question type dispatch of `_grade_core` (lines 248 and 254-259):
`qtype = (q.get("type") or "single").strip().lower()`, then summary, single,
or the multi fallback. -/
def scoreDispatch (qtypeRaw : Val) (user correct : List String) : Int × Int × Bool :=
  let qtype := pyLower (pyStrip (pyStr (pyOr qtypeRaw (Val.str "single"))))
  if qtype = "summary" then _score_summary_q10 user correct
  else if qtype = "single" then _score_single user correct
  else _score_multi_exact user correct

/-- C6: for every question type (whatever the raw `type` field holds, so
single, multi, and summary included) and every submitted answer set, an
empty resolved correct-answer set yields 0 points and an incorrect mark,
and the scorer returns normally (all scorers are total functions). -/
theorem spec2proof_C6 (qtypeRaw : Val) (user : List String) :
    (scoreDispatch qtypeRaw user []).1 = 0 ∧ (scoreDispatch qtypeRaw user []).2.2 = false := by
  have hs : _score_summary_q10 user [] = (0, 2, false) := rfl
  have h1 : _score_single user [] = (0, 1, false) := rfl
  have hm : _score_multi_exact user [] = (0, 1, false) := rfl
  simp only [scoreDispatch]
  split_ifs <;> simp [hs, h1, hm]

/-- The fixed table exactly as the specification words it for C5:
11→30, 10→29, 9→28, 8→27, 7→26, 6→25, 5→23, 4→20, 3→16, 2→12, 1→7, 0→0. -/
def claimTableC5 (raw : Int) : Int :=
  if raw = 11 then 30 else if raw = 10 then 29 else if raw = 9 then 28
  else if raw = 8 then 27 else if raw = 7 then 26 else if raw = 6 then 25
  else if raw = 5 then 23 else if raw = 4 then 20 else if raw = 3 then 16
  else if raw = 2 then 12 else if raw = 1 then 7 else if raw = 0 then 0 else 0

/-- C5: `scale_reading_score` equals the fixed table when `total = 11`, and
for every other positive total it linearly rescales the raw score to an
equivalent 0-11 value (rounded to the nearest integer, ties to even as
Python `round` does), looks it up in the same table, and clamps the result
to [0, 30]. -/
theorem spec2proof_C5 (raw total : Int) :
    (total = 11 → 0 ≤ raw → raw ≤ 11 →
      scale_reading_score raw total = claimTableC5 raw)
    ∧ (0 < total → total ≠ 11 → 0 ≤ raw → raw ≤ total →
      scale_reading_score raw total
        = max 0 (min 30 (claimTableC5 (roundHalfEven ((raw : ℚ) * 11 / (total : ℚ)))))) := by
  constructor
  · intro h11 h0 hle
    subst h11
    have he : scale_reading_score raw 11 = max 0 (min 30 (table11 raw)) := by
      unfold scale_reading_score
      rw [if_pos rfl]
    rw [he]
    interval_cases raw <;> decide
  · intro hpos hne h0 hle
    unfold scale_reading_score
    rw [if_neg hne, if_neg (by omega)]
    have hsp : max 0 (min raw total) = raw := by omega
    rw [hsp]
    have htab : ∀ n : Int, table11 n = claimTableC5 n := fun n => rfl
    simp only [htab]

theorem spec2proof_C5_witness :
    scale_reading_score 9 11 = claimTableC5 9 ∧
    scale_reading_score 5 22
      = max 0 (min 30 (claimTableC5 (roundHalfEven ((5 : ℚ) * 11 / (22 : ℚ))))) :=
  ⟨(spec2proof_C5 9 11).1 rfl (by decide) (by decide),
   (spec2proof_C5 5 22).2 (by decide) (by decide) (by decide) (by decide)⟩

end Verraco
